import Mathlib

/-!
# Bumbolandia Bank: the in-memory ledger of `src/server/index.js`

A shallow embedding of the Express request handlers of the demo bank and the
properties of its ledger.

Modelling conventions.

* The three process-wide stores (`accountsByCard`, `sessions`, `adminSessions`)
  form an explicit `State`; every handler is a function from a state and a
  request to a response and a new state.
* A JavaScript `Map` is an association list in insertion order.  Account objects
  are only ever reached through the map, so an object reference is modelled by
  the key it is stored under, and an in-place mutation of the object by
  `JSMap.modify` at that key.
* The random generators (`TOKEN_GENERATOR`, `CARD_GENERATOR`) and the clock
  (`dayjs()`) are inputs of every request (`Env`); nothing is assumed about the
  values they produce.
* JavaScript numbers are IEEE 754 binary64 values (`JSNum`): a finite number is
  the rational it denotes, and `+` and `-` round the exact result to the nearest
  double, ties to even, with overflow to an infinity (`roundDouble`).  The two
  zeros are identified: no operation of the handlers tells them apart.
* Request bodies are JSON values (`JSVal`).  The coercions `Number(...)`,
  `String(...)`, `!x` and `x || y` follow ECMAScript, including the `TypeError`
  that `Number` and `String` throw on an object with an own `toString` property;
  a handler that throws is answered by Express with status 500.  The two
  conversions between strings and numbers are parameters (`Builtins`).
-/

set_option exponentiation.threshold 2048
set_option maxRecDepth 2048

unseal Rat.add Rat.sub Rat.mul Rat.inv

namespace BBank

/-! ## JavaScript numbers -/

/-- A JavaScript number: a finite value, `NaN`, `Infinity` or `-Infinity`. -/
inductive JSNum where
  | fin (q : ℚ)
  | nan
  | posInf
  | negInf
deriving DecidableEq

/-- The power `2 ^ n` as a rational. -/
def pow2 (n : ℕ) : ℚ :=
  Rat.ofInt (Int.ofNat (2 ^ n))

/-- The power `2 ^ k` for an integer exponent. -/
def zpow2 (k : ℤ) : ℚ :=
  if 0 ≤ k then pow2 k.toNat else 1 / pow2 (-k).toNat

/-- The number of halvings that bring `n` below 2, at most `fuel` of them. -/
def log2Fuel : ℕ → ℕ → ℕ
  | 0, _ => 0
  | fuel + 1, n => if n < 2 then 0 else log2Fuel fuel (n / 2) + 1

/-- The integer part of the binary logarithm of `n` (0 for `n = 0`). -/
def floorLog2 (n : ℕ) : ℕ :=
  log2Fuel n n

/-- Rounding of a rational to the nearest integer, a tie going to the even one. -/
def roundHalfEven (x : ℚ) : ℤ :=
  if x - ⌊x⌋ < 1 / 2 then ⌊x⌋
  else if 1 / 2 < x - ⌊x⌋ then ⌊x⌋ + 1
  else if ⌊x⌋ % 2 = 0 then ⌊x⌋ else ⌊x⌋ + 1

/-- The exponent `e` of the binade of a positive rational: `2 ^ e ≤ a < 2 ^ (e + 1)`.
The difference of the logarithms of numerator and denominator is `e` or `e + 1`. -/
def binade (a : ℚ) : ℤ :=
  if zpow2 ((floorLog2 a.num.toNat : ℤ) - (floorLog2 a.den : ℤ)) ≤ a
  then (floorLog2 a.num.toNat : ℤ) - (floorLog2 a.den : ℤ)
  else (floorLog2 a.num.toNat : ℤ) - (floorLog2 a.den : ℤ) - 1

/-- The exponent of the spacing of the doubles around `a`: 52 below the binade
of `a`, and never below `-1074` (subnormal numbers). -/
def ulpExp (a : ℚ) : ℤ :=
  max (binade a) (-1022) - 52

/-- The multiple of the spacing nearest to a non-negative `a`, ties to even. -/
def roundMagnitude (a : ℚ) : ℚ :=
  roundHalfEven (a / zpow2 (ulpExp a)) * zpow2 (ulpExp a)

/-- The double nearest to the rational `q` (round to nearest, ties to even); a
result of magnitude `2 ^ 1024` or more is an infinity. -/
def roundDouble (q : ℚ) : JSNum :=
  if 0 ≤ q then
    if pow2 1024 ≤ roundMagnitude q then .posInf else .fin (roundMagnitude q)
  else
    if pow2 1024 ≤ roundMagnitude (-q) then .negInf else .fin (-roundMagnitude (-q))

/-- The test `Number.isFinite(x)`. -/
def JSNum.isFinite : JSNum → Bool
  | .fin _ => true
  | _ => false

/-- The unary minus. -/
def JSNum.neg : JSNum → JSNum
  | .fin q => .fin (-q)
  | .nan => .nan
  | .posInf => .negInf
  | .negInf => .posInf

/-- The sum `x + y` of two numbers. -/
def JSNum.add : JSNum → JSNum → JSNum
  | .fin a, .fin b => roundDouble (a + b)
  | .nan, _ => .nan
  | _, .nan => .nan
  | .posInf, .negInf => .nan
  | .negInf, .posInf => .nan
  | .posInf, _ => .posInf
  | _, .posInf => .posInf
  | .negInf, _ => .negInf
  | _, .negInf => .negInf

/-- The difference `x - y` of two numbers. -/
def JSNum.sub (x y : JSNum) : JSNum :=
  x.add y.neg

/-- The comparison `x < y`. -/
def JSNum.lt : JSNum → JSNum → Bool
  | .fin a, .fin b => decide (a < b)
  | .fin _, .posInf => true
  | .negInf, .fin _ => true
  | .negInf, .posInf => true
  | _, _ => false

/-- The comparison `x <= y`. -/
def JSNum.le : JSNum → JSNum → Bool
  | .fin a, .fin b => decide (a ≤ b)
  | .fin _, .posInf => true
  | .negInf, .fin _ => true
  | .negInf, .posInf => true
  | .posInf, .posInf => true
  | .negInf, .negInf => true
  | _, _ => false

/-! ## JavaScript values and coercions -/

/-- A request-body value: what `express.json()` can put in a field of
`req.body`.  The value `undefined` is a missing field; a plain object is given by
the names of its own properties, whose values play no part in a coercion since
none of them is callable. -/
inductive JSVal where
  | undefined
  | null
  | bool (b : Bool)
  | num (n : JSNum)
  | str (s : String)
  | arr (xs : List JSVal)
  | obj (keys : List String)

/-- The two built-in conversions between strings and numbers
(`Number::toString` and `StringToNumber`). -/
structure Builtins where
  numberToString : JSNum → String
  stringToNumber : String → JSNum

/-- The truthiness test `ToBoolean`, used by `!x` and `x || y`. -/
def truthy : JSVal → Bool
  | .undefined => false
  | .null => false
  | .bool b => b
  | .num (.fin q) => decide (q ≠ 0)
  | .num .nan => false
  | .num _ => true
  | .str s => decide (s ≠ "")
  | .arr _ => true
  | .obj _ => true

/-- The JavaScript expression `x || y`. -/
def jsOr (x y : JSVal) : JSVal :=
  if truthy x then x else y

mutual
/-- The coercion `String(v)`; `none` when it throws a `TypeError`, which it does
on an object with an own property `toString` (a JSON value is not callable and
the inherited `valueOf` returns the object), also inside an array. -/
def toStr (B : Builtins) : JSVal → Option String
  | .undefined => some "undefined"
  | .null => some "null"
  | .bool true => some "true"
  | .bool false => some "false"
  | .num n => some (B.numberToString n)
  | .str s => some s
  | .arr xs => joinElems B xs
  | .obj keys => if "toString" ∈ keys then none else some "[object Object]"
/-- The body of `Array.prototype.join` with separator `","`: `undefined` and
`null` elements contribute the empty string. -/
def joinElems (B : Builtins) : List JSVal → Option String
  | [] => some ""
  | [x] => elemStr B x
  | x :: y :: rest =>
    match elemStr B x, joinElems B (y :: rest) with
    | some a, some b => some (a ++ "," ++ b)
    | _, _ => none
/-- The string one array element contributes to `join`. -/
def elemStr (B : Builtins) : JSVal → Option String
  | .undefined => some ""
  | .null => some ""
  | .bool true => some "true"
  | .bool false => some "false"
  | .num n => some (B.numberToString n)
  | .str s => some s
  | .arr xs => joinElems B xs
  | .obj keys => if "toString" ∈ keys then none else some "[object Object]"
end

/-- The coercion `Number(v)`; `none` when it throws a `TypeError`.  An array is
first converted to a string; an object on which `String` does not throw gives
the string "[object Object]" and so `NaN`. -/
def toNumber (B : Builtins) : JSVal → Option JSNum
  | .undefined => some .nan
  | .null => some (.fin 0)
  | .bool true => some (.fin 1)
  | .bool false => some (.fin 0)
  | .num n => some n
  | .str s => some (B.stringToNumber s)
  | .arr xs => (toStr B (.arr xs)).map B.stringToNumber
  | .obj keys => if "toString" ∈ keys then none else some .nan

/-- The card normalisation `s.replace(/\D/g, "")`: keep the ASCII digits. -/
def normalizeCard (s : String) : String :=
  String.mk (s.toList.filter fun c => decide ('0' ≤ c ∧ c ≤ '9'))

/-- The UTF-16 code units of a list of characters. -/
def utf16Units : List Char → List ℕ
  | [] => []
  | c :: rest =>
    if c.toNat < 0x10000 then c.toNat :: utf16Units rest
    else (0xD800 + (c.toNat - 0x10000) / 0x400) ::
      (0xDC00 + (c.toNat - 0x10000) % 0x400) :: utf16Units rest

/-- The code units removed by `String.prototype.trim` (white space and line
terminators). -/
def isJSWhitespace (u : ℕ) : Bool :=
  u ∈ [0x09, 0x0A, 0x0B, 0x0C, 0x0D, 0x20, 0xA0, 0x1680, 0x2000, 0x2001,
    0x2002, 0x2003, 0x2004, 0x2005, 0x2006, 0x2007, 0x2008, 0x2009, 0x200A,
    0x2028, 0x2029, 0x202F, 0x205F, 0x3000, 0xFEFF]

/-- The expression `s.trim().slice(0, 64)`, as UTF-16 code units: `slice` counts
code units and may cut a surrogate pair. -/
def trimSlice64 (s : String) : List ℕ :=
  ((((utf16Units s.toList).dropWhile isJSWhitespace).reverse.dropWhile
    isJSWhitespace).reverse).take 64

/-! ## JavaScript `Map` and `Set` -/

/-- A JavaScript `Map` with string keys, in insertion order. -/
abbrev JSMap (α : Type) := List (String × α)

/-- The method `Map.prototype.get`. -/
def JSMap.get {α : Type} : JSMap α → String → Option α
  | [], _ => none
  | (k', v) :: rest, k => if k' = k then some v else JSMap.get rest k

/-- The method `Map.prototype.has`. -/
def JSMap.has {α : Type} (m : JSMap α) (k : String) : Bool :=
  (JSMap.get m k).isSome

/-- The method `Map.prototype.set`: an existing key keeps its place. -/
def JSMap.set {α : Type} : JSMap α → String → α → JSMap α
  | [], k, v => [(k, v)]
  | (k', v') :: rest, k, v =>
    if k' = k then (k, v) :: rest else (k', v') :: JSMap.set rest k v

/-- In-place mutation of the object stored under key `k`. -/
def JSMap.modify {α : Type} : JSMap α → String → (α → α) → JSMap α
  | [], _, _ => []
  | (k', v) :: rest, k, f =>
    if k' = k then (k', f v) :: rest else (k', v) :: JSMap.modify rest k f

/-- The method `Map.prototype.values`, as an array. -/
def JSMap.values {α : Type} (m : JSMap α) : List α :=
  m.map Prod.snd

/-- The method `Set.prototype.add`. -/
def setAdd (s : List String) (x : String) : List String :=
  if x ∈ s then s else s ++ [x]

/-! ## Data model -/

/-- The direction tag of a stored transaction record. -/
inductive Direction where
  | sent
  | received
  | increase
deriving DecidableEq

/-- The object `tx` built by a transfer (returned to the client). -/
structure Tx where
  id : String
  fromCard : String
  toCard : String
  amount : JSNum
  currency : String
  timestamp : String
deriving DecidableEq

/-- A record of an account's `transactions` array: `{ ...tx, direction }`. -/
structure TxRecord extends Tx where
  direction : Direction
deriving DecidableEq

/-- An account object; the name is kept as its UTF-16 code units. -/
structure Account where
  id : String
  name : List ℕ
  cardNumber : String
  balance : JSNum
  currency : String
  createdAt : String
  transactions : List TxRecord
deriving DecidableEq

/-- The process-wide stores. -/
structure State where
  accountsByCard : JSMap Account
  sessions : JSMap String
  adminSessions : List String
deriving DecidableEq

/-- The state of a freshly started server. -/
def State.empty : State :=
  ⟨[], [], []⟩

/-- The values the environment supplies while one request is handled: `id` is
the result of the `TOKEN_GENERATOR()` call that names an account, a
transaction or an admin token, `token` the result of the call that names a
session, `card` the result of `CARD_GENERATOR()` and `now` the result of
`dayjs().toISOString()`. -/
structure Env where
  id : String
  token : String
  card : String
  now : String

/-- The constant `ADMIN_ACCESS_CODE`. -/
def ADMIN_ACCESS_CODE : String := "TimeAbsolut434345@"

/-! ## Responses and requests -/

/-- The account fields returned by `/api/register` and `/api/me`. -/
structure AccountInfo where
  id : String
  name : List ℕ
  cardNumber : String
  balance : JSNum
  currency : String
deriving DecidableEq

/-- One element of `getAllAccountsPublic()`. -/
structure AccountPublic where
  id : String
  name : List ℕ
  cardNumber : String
  balance : JSNum
  currency : String
  createdAt : String
deriving DecidableEq

/-- What a handler sends back: an error status with its `error` message, the
JSON body of the successful answer of one of the six routes, or `uncaught`
when the handler threw a `TypeError`, which Express answers with status 500. -/
inductive Response where
  | error (status : Nat) (message : String)
  | uncaught
  | registered (token : String) (account : AccountInfo)
  | me (account : AccountInfo) (transactions : List TxRecord)
  | transferred (tx : Tx)
  | adminToken (adminToken : String)
  | accounts (accounts : List AccountPublic)
  | increased (balance : JSNum)
deriving DecidableEq

/-- A request to one of the six routes.  A token is the value of the
`x-session-token` / `x-admin-token` header (`none` when the header is
absent); the other arguments are the fields of `req.body`. -/
inductive Request where
  | register (name cardNumber : JSVal)
  | me (token : Option String)
  | transfer (token : Option String) (toCardNumber amount : JSVal)
  | adminLogin (code : JSVal)
  | adminAccounts (adminToken : Option String)
  | adminIncrease (adminToken : Option String) (cardNumber amount : JSVal)

/-! ## The handlers -/

/-- The function `createAccount({ name, cardNumber })`: the account it returns and
the store afterwards, or `none` when `String(cardNumber)` or
`String(name || "User")` throws, which happens before the store is touched. -/
def createAccount (B : Builtins) (env : Env) (s : State) (name cardNumber : JSVal) :
    Option (Account × State) :=
  match toStr B cardNumber with
  | none => none
  | some cardStr =>
    let normalizedCard := normalizeCard cardStr
    match s.accountsByCard.get normalizedCard with
    | some existing => some (existing, s)
    | none =>
      match toStr B (jsOr name (.str "User")) with
      | none => none
      | some nameStr =>
        let account : Account :=
          { id := env.id
            name := trimSlice64 nameStr
            cardNumber := if normalizedCard ≠ "" then normalizedCard else env.card
            balance := .fin 0
            currency := "DBL"
            createdAt := env.now
            transactions := [] }
        some (account,
          { s with accountsByCard := s.accountsByCard.set account.cardNumber account })

/-- The function `getAccountByToken(token)`: the account object the token resolves
to, together with the key it is stored under (its reference). -/
def getAccountByToken (s : State) (token : Option String) : Option (String × Account) :=
  match token with
  | none => none
  | some t =>
    match s.sessions.get t with
    | none => none
    | some card =>
      if card = "" then none
      else (s.accountsByCard.get card).map fun a => (card, a)

/-- The function `getAllAccountsPublic()`. -/
def getAllAccountsPublic (s : State) : List AccountPublic :=
  s.accountsByCard.values.map fun a =>
    { id := a.id, name := a.name, cardNumber := a.cardNumber, balance := a.balance,
      currency := a.currency, createdAt := a.createdAt }

/-- The expression `xs.slice(-50)`. -/
def last50 {α : Type} (xs : List α) : List α :=
  xs.drop (xs.length - 50)

/-- The fields of an account sent to its owner. -/
def Account.info (a : Account) : AccountInfo :=
  { id := a.id, name := a.name, cardNumber := a.cardNumber, balance := a.balance,
    currency := a.currency }

/-- The route `POST /api/register`.  In the guard `String(cardNumber)` is reached
only for a falsy `cardNumber`, on which it does not throw. -/
def register (B : Builtins) (env : Env) (s : State) (name cardNumber : JSVal) :
    Response × State :=
  if !truthy name || (!truthy cardNumber && decide (toStr B cardNumber ≠ some "")) then
    (.error 400 "name and cardNumber are required (demo)", s)
  else
    match createAccount B env s name cardNumber with
    | none => (.uncaught, s)
    | some (account, s1) =>
      let token := env.token
      (.registered token account.info,
        { s1 with sessions := s1.sessions.set token account.cardNumber })

/-- The route `GET /api/me`. -/
def me (s : State) (token : Option String) : Response × State :=
  match getAccountByToken s token with
  | none => (.error 401 "invalid session", s)
  | some (_, account) => (.me account.info (last50 account.transactions), s)

/-- The expression `String(v || "").replace(/\D/g, "")`, by which the transfer and
credit routes normalise the card number of the request body; `none` when
`String` throws. -/
def normalizedInput (B : Builtins) (v : JSVal) : Option String :=
  (toStr B (jsOr v (.str ""))).map normalizeCard

/-- The assignment `account.balance -= amount`. -/
def debit (amount : JSNum) (a : Account) : Account :=
  { a with balance := a.balance.sub amount }

/-- The assignment `account.balance += amount`. -/
def credit (amount : JSNum) (a : Account) : Account :=
  { a with balance := a.balance.add amount }

/-- The call `account.transactions.push(record)`. -/
def push (record : TxRecord) (a : Account) : Account :=
  { a with transactions := a.transactions ++ [record] }

/-- The route `POST /api/transfer`.  The statements run in the order of the
source: the session check, `String(toCardNumber || "")` and `Number(amount)`
(either of which may throw), then the checks of the recipient, of the amount
and of the funds, then the mutations. -/
def transfer (B : Builtins) (env : Env) (s : State) (token : Option String)
    (toCardNumber amount : JSVal) : Response × State :=
  match getAccountByToken s token with
  | none => (.error 401 "invalid session", s)
  | some (fromKey, fromAcc) =>
    match normalizedInput B toCardNumber with
    | none => (.uncaught, s)
    | some normalizedTo =>
      match toNumber B amount with
      | none => (.uncaught, s)
      | some parsedAmount =>
        match s.accountsByCard.get normalizedTo with
        | none => (.error 404 "recipient not found", s)
        | some toAcc =>
          if !parsedAmount.isFinite || parsedAmount.le (.fin 0) then
            (.error 400 "invalid amount", s)
          else if fromAcc.balance.lt parsedAmount then (.error 400 "insufficient funds", s)
          else
            let m1 := s.accountsByCard.modify fromKey (debit parsedAmount)
            let m2 := m1.modify normalizedTo (credit parsedAmount)
            let tx : Tx :=
              { id := env.id
                fromCard := fromAcc.cardNumber
                toCard := toAcc.cardNumber
                amount := parsedAmount
                currency := fromAcc.currency
                timestamp := env.now }
            let m3 := m2.modify fromKey (push { tx with direction := .sent })
            let m4 := m3.modify normalizedTo (push { tx with direction := .received })
            (.transferred tx, { s with accountsByCard := m4 })

/-- The route `POST /api/admin/login`. -/
def adminLogin (env : Env) (s : State) (code : JSVal) : Response × State :=
  match code with
  | .str c =>
    if c ≠ ADMIN_ACCESS_CODE then (.error 401 "invalid code", s)
    else
      let adminToken := "adm_" ++ env.id
      (.adminToken adminToken, { s with adminSessions := setAdd s.adminSessions adminToken })
  | _ => (.error 401 "invalid code", s)

/-- The function `requireAdmin(req, res)`: the admin token when the request carries a
valid one, `none` when the request has been answered with 401. -/
def requireAdmin (s : State) (token : Option String) : Option String :=
  match token with
  | none => none
  | some t => if t = "" ∨ t ∉ s.adminSessions then none else some t

/-- The route `GET /api/admin/accounts`. -/
def adminAccounts (s : State) (adminToken : Option String) : Response × State :=
  match requireAdmin s adminToken with
  | none => (.error 401 "unauthorized", s)
  | some _ => (.accounts (getAllAccountsPublic s), s)

/-- The route `POST /api/admin/increase`, its statements in the order of the
source. -/
def adminIncrease (B : Builtins) (env : Env) (s : State) (adminToken : Option String)
    (cardNumber amount : JSVal) : Response × State :=
  match requireAdmin s adminToken with
  | none => (.error 401 "unauthorized", s)
  | some _ =>
    match normalizedInput B cardNumber with
    | none => (.uncaught, s)
    | some normalized =>
      match toNumber B amount with
      | none => (.uncaught, s)
      | some parsedAmount =>
        match s.accountsByCard.get normalized with
        | none => (.error 404 "account not found", s)
        | some account =>
          if !parsedAmount.isFinite || parsedAmount.le (.fin 0) then
            (.error 400 "invalid amount", s)
          else
            let m1 := s.accountsByCard.modify normalized (credit parsedAmount)
            let m2 := m1.modify normalized (push
              { id := env.id
                fromCard := "ADMIN"
                toCard := account.cardNumber
                amount := parsedAmount
                currency := account.currency
                timestamp := env.now
                direction := .increase })
            (.increased (account.balance.add parsedAmount),
              { s with accountsByCard := m2 })

/-- One request handled by the server. -/
def handle (B : Builtins) (env : Env) (s : State) : Request → Response × State
  | .register name cardNumber => register B env s name cardNumber
  | .me token => me s token
  | .transfer token toCardNumber amount => transfer B env s token toCardNumber amount
  | .adminLogin code => adminLogin env s code
  | .adminAccounts adminToken => adminAccounts s adminToken
  | .adminIncrease adminToken cardNumber amount =>
    adminIncrease B env s adminToken cardNumber amount

/-- The state after a sequence of requests, handled one at a time. -/
def run (B : Builtins) (s : State) : List (Env × Request) → State
  | [] => s
  | (env, r) :: rest => run B (handle B env s r).2 rest

/-! ## A concrete scenario -/

/-- An instance of the built-in conversions for the examples: it agrees with
JavaScript on the strings of decimal digits and on the natural numbers below
`10 ^ 21`, the only arguments the examples give it. -/
def demoBuiltins : Builtins where
  numberToString
    | .fin q => if q.den = 1 ∧ 0 ≤ q.num then toString q.num.toNat else "NaN"
    | .nan => "NaN"
    | .posInf => "Infinity"
    | .negInf => "-Infinity"
  stringToNumber s :=
    if s = "" then .fin 0
    else match s.toNat? with
      | some n => .fin n
      | none => .nan

/-- The generated values used in the examples. -/
def demoEnv (n : String) : Env :=
  { id := "id" ++ n, token := "tok" ++ n, card := "000000000000000" ++ n, now := "t" ++ n }

/-- The card of Alice in the example scenario of the specification. -/
def aliceCard : String := "1111222233334444"

/-- The card of Bob in the example scenario of the specification. -/
def bobCard : String := "5555666677778888"

/-- The name "Alice" as UTF-16 code units. -/
def aliceName : List ℕ := [65, 108, 105, 99, 101]

/-- The name "Bob" as UTF-16 code units. -/
def bobName : List ℕ := [66, 111, 98]

/-- The first three requests of the example scenario: Alice and Bob register
and the admin logs in. -/
def scenarioStart : List (Env × Request) :=
  [ (demoEnv "1", .register (.str "Alice") (.str aliceCard)),
    (demoEnv "2", .register (.str "Bob") (.str bobCard)),
    (demoEnv "3", .adminLogin (.str ADMIN_ACCESS_CODE)) ]

/-- The store after the first three requests: Alice and Bob at 0, one admin token. -/
def registeredState : State :=
  run demoBuiltins State.empty scenarioStart

/-- The admin credit of the example scenario: 100 on the card of Alice. -/
def scenarioCredit : Env × Request :=
  (demoEnv "4", .adminIncrease (some "adm_id3") (.str aliceCard) (.num (.fin 100)))

/-- The store after the set-up of the example scenario: Alice at 100, Bob at 0. -/
def scenarioState : State :=
  run demoBuiltins registeredState [scenarioCredit]

/-- The fifth request of the example scenario: Alice transfers 40 to Bob. -/
def scenarioTransfer : Env × Request :=
  (demoEnv "5", .transfer (some "tok1") (.str bobCard) (.num (.fin 40)))

/-- The store after the transfer of the example scenario: Alice at 60, Bob at 40. -/
def scenarioAfter : State :=
  run demoBuiltins scenarioState [scenarioTransfer]

/-- The store after an admin login alone: one admin token, no account. -/
def adminOnlyState : State :=
  run demoBuiltins State.empty [(demoEnv "3", .adminLogin (.str ADMIN_ACCESS_CODE))]

/-- The card of Alice written in groups of four. -/
def aliceCardSpaced : String := "1111 2222 3333 4444"

/-- The number `2 ^ 53`, from which on the doubles are two or more apart. -/
def twoPow53 : ℚ := 9007199254740992

/-- A credit of `2 ^ 53` on the card of Alice. -/
def bigCredit : Env × Request :=
  (demoEnv "4", .adminIncrease (some "adm_id3") (.str aliceCard) (.num (.fin twoPow53)))

/-- The store with Alice at `2 ^ 53` and Bob at 0. -/
def bigState : State :=
  run demoBuiltins registeredState [bigCredit]

/-- A credit of 1 on the card of Alice. -/
def unitCredit : Env × Request :=
  (demoEnv "5", .adminIncrease (some "adm_id3") (.str aliceCard) (.num (.fin 1)))

/-- A credit of 1 on the card of Bob. -/
def unitCreditBob : Env × Request :=
  (demoEnv "5", .adminIncrease (some "adm_id3") (.str bobCard) (.num (.fin 1)))

/-- A JSON object with an own property `toString`, such as `{"toString": 1}`. -/
def throwingObject : JSVal := .obj ["toString"]

/-! ## Vocabulary of the properties -/

/-- The balance of the account stored under card `k`, if there is one. -/
def balanceOf (s : State) (k : String) : Option JSNum :=
  (s.accountsByCard.get k).map fun a => a.balance

/-- The transaction history of the account stored under card `k`. -/
def historyOf (s : State) (k : String) : Option (List TxRecord) :=
  (s.accountsByCard.get k).map fun a => a.transactions

/-- The exact sum of a list of finite numbers; `none` when one of them is not
finite. -/
def exactSum : List JSNum → Option ℚ
  | [] => some 0
  | .fin q :: rest => (exactSum rest).map fun t => q + t
  | _ :: _ => none

/-- The exact sum of the balances of all accounts in the store, when they are
all finite. -/
def totalBalance (s : State) : Option ℚ :=
  exactSum (s.accountsByCard.values.map fun a => a.balance)

/-- The signed amount of a stored record: `sent` counts negative, `received`
and `increase` count positive. -/
def signedAmount (r : TxRecord) : JSNum :=
  match r.direction with
  | .sent => r.amount.neg
  | .received => r.amount
  | .increase => r.amount

/-- The exact sum of the signed amounts of the history of an account. -/
def ledgerSum (a : Account) : Option ℚ :=
  exactSum (a.transactions.map signedAmount)

/-- The sum of the signed amounts of the history of an account, taken from 0 in
the order of the history with the addition of doubles. -/
def ledgerFold (a : Account) : JSNum :=
  a.transactions.foldl (fun acc r => acc.add (signedAmount r)) (.fin 0)

/-- Every account object in the store satisfies `P`. -/
def AllAccounts (P : Account → Prop) (s : State) : Prop :=
  ∀ p ∈ s.accountsByCard, P p.2

/-- A number that the amount check `!Number.isFinite(x) || x <= 0` rejects. -/
def invalidAmount : JSNum → Prop
  | .fin q => q ≤ 0
  | _ => True

/-- The rational `q` is a double: rounding leaves it as it is. -/
def IsDouble (q : ℚ) : Prop :=
  roundDouble q = .fin q

instance (q : ℚ) : Decidable (IsDouble q) :=
  inferInstanceAs (Decidable (roundDouble q = .fin q))

/-- The object `tx` that a transfer of `amount` from account `x` to account `y`
builds. -/
def transferTx (env : Env) (x y : Account) (amount : JSNum) : Tx :=
  { id := env.id, fromCard := x.cardNumber, toCard := y.cardNumber, amount := amount,
    currency := x.currency, timestamp := env.now }

/-- The record that an admin credit of `amount` appends to account `a`. -/
def increaseRecord (env : Env) (a : Account) (amount : JSNum) : TxRecord :=
  { id := env.id, fromCard := "ADMIN", toCard := a.cardNumber, amount := amount,
    currency := a.currency, timestamp := env.now, direction := .increase }

/-- The three fields of an account that no ledger operation assigns. -/
def SameIdentity (a b : Account) : Prop :=
  b.id = a.id ∧ b.cardNumber = a.cardNumber ∧ b.name = a.name

/-- A state the server can be in: the state after some sequence of requests
to a freshly started server. -/
def Reachable (B : Builtins) (s : State) : Prop :=
  ∃ trace, s = run B State.empty trace

/-- The request is a transfer or an admin credit. -/
def Request.isLedgerOp : Request → Bool
  | .transfer _ _ _ => true
  | .adminIncrease _ _ _ => true
  | _ => false

/-! ## Lemmas on maps -/

theorem JSMap.get_modify_self {α : Type} (m : JSMap α) (k : String) (f : α → α) :
    JSMap.get (JSMap.modify m k f) k = (JSMap.get m k).map f := by
  induction m with
  | nil => simp [JSMap.modify, JSMap.get]
  | cons p rest ih =>
    obtain ⟨k', v⟩ := p
    by_cases h : k' = k
    · simp [JSMap.modify, JSMap.get, h]
    · simp [JSMap.modify, JSMap.get, h, ih]

theorem JSMap.get_modify_of_ne {α : Type} (m : JSMap α) (k k₁ : String) (f : α → α)
    (hne : k₁ ≠ k) : JSMap.get (JSMap.modify m k f) k₁ = JSMap.get m k₁ := by
  induction m with
  | nil => simp [JSMap.modify, JSMap.get]
  | cons p rest ih =>
    obtain ⟨k', v⟩ := p
    by_cases h : k' = k
    · subst h
      have : ¬ k' = k₁ := fun e => hne e.symm
      simp [JSMap.modify, JSMap.get, this]
    · by_cases h1 : k' = k₁
      · subst h1
        simp [JSMap.modify, JSMap.get, h]
      · simp [JSMap.modify, JSMap.get, h, h1, ih]

theorem JSMap.modify_of_get_none {α : Type} (m : JSMap α) (k : String) (f : α → α)
    (h : JSMap.get m k = none) : JSMap.modify m k f = m := by
  induction m with
  | nil => simp [JSMap.modify]
  | cons p rest ih =>
    obtain ⟨k', v⟩ := p
    by_cases hk : k' = k
    · simp [JSMap.get, hk] at h
    · simp [JSMap.get, hk] at h
      simp [JSMap.modify, hk, ih h]

theorem JSMap.modify_modify_self {α : Type} (m : JSMap α) (k : String) (f g : α → α) :
    JSMap.modify (JSMap.modify m k f) k g = JSMap.modify m k (g ∘ f) := by
  induction m with
  | nil => simp [JSMap.modify]
  | cons p rest ih =>
    obtain ⟨k', v⟩ := p
    by_cases hk : k' = k
    · simp [JSMap.modify, hk]
    · simp [JSMap.modify, hk, ih]

theorem JSMap.modify_comm {α : Type} (m : JSMap α) (k₁ k₂ : String) (f g : α → α)
    (hne : k₁ ≠ k₂) :
    JSMap.modify (JSMap.modify m k₁ f) k₂ g = JSMap.modify (JSMap.modify m k₂ g) k₁ f := by
  induction m with
  | nil => simp [JSMap.modify]
  | cons p rest ih =>
    obtain ⟨k', v⟩ := p
    by_cases h1 : k' = k₁
    · subst h1
      simp [JSMap.modify, hne]
    · by_cases h2 : k' = k₂
      · subst h2
        simp [JSMap.modify, h1]
      · simp [JSMap.modify, h1, h2, ih]

theorem JSMap.mem_modify {α : Type} (m : JSMap α) (k : String) (f : α → α)
    (p : String × α) (hp : p ∈ JSMap.modify m k f) :
    p ∈ m ∨ ∃ a, JSMap.get m k = some a ∧ p = (k, f a) := by
  induction m with
  | nil => simp [JSMap.modify] at hp
  | cons q rest ih =>
    obtain ⟨k', v⟩ := q
    by_cases hk : k' = k
    · simp [JSMap.modify, hk] at hp
      rcases hp with hp | hp
      · right
        exact ⟨v, by simp [JSMap.get, hk], hp⟩
      · left
        simp [hp]
    · simp [JSMap.modify, hk] at hp
      rcases hp with hp | hp
      · left
        simp [hp]
      · rcases ih hp with h | ⟨a, ha, hpa⟩
        · left
          simp [h]
        · right
          exact ⟨a, by simp [JSMap.get, hk, ha], hpa⟩

theorem JSMap.mem_of_get {α : Type} (m : JSMap α) (k : String) (a : α)
    (h : JSMap.get m k = some a) : (k, a) ∈ m := by
  induction m with
  | nil => simp [JSMap.get] at h
  | cons q rest ih =>
    obtain ⟨k', v⟩ := q
    by_cases hk : k' = k
    · simp [JSMap.get, hk] at h
      simp [hk, h]
    · simp [JSMap.get, hk] at h
      simp [ih h]

theorem JSMap.get_set_self {α : Type} (m : JSMap α) (k : String) (v : α) :
    JSMap.get (JSMap.set m k v) k = some v := by
  induction m with
  | nil => simp [JSMap.set, JSMap.get]
  | cons q rest ih =>
    obtain ⟨k', v'⟩ := q
    by_cases hk : k' = k
    · simp [JSMap.set, JSMap.get, hk]
    · simp [JSMap.set, JSMap.get, hk, ih]

theorem JSMap.mem_set {α : Type} (m : JSMap α) (k : String) (v : α)
    (p : String × α) (hp : p ∈ JSMap.set m k v) : p ∈ m ∨ p = (k, v) := by
  induction m with
  | nil =>
    simp [JSMap.set] at hp
    exact Or.inr hp
  | cons q rest ih =>
    obtain ⟨k', v'⟩ := q
    by_cases hk : k' = k
    · simp [JSMap.set, hk] at hp
      rcases hp with hp | hp
      · exact Or.inr hp
      · left
        simp [hp]
    · simp [JSMap.set, hk] at hp
      rcases hp with hp | hp
      · left
        simp [hp]
      · rcases ih hp with h | h
        · left
          simp [h]
        · exact Or.inr h

theorem JSMap.get_modify_isSome {α : Type} (m : JSMap α) (k k₁ : String) (f : α → α) (a : α)
    (h : JSMap.get m k₁ = some a) : ∃ b, JSMap.get (JSMap.modify m k f) k₁ = some b := by
  by_cases hk : k₁ = k
  · subst hk
    exact ⟨f a, by simp [JSMap.get_modify_self, h]⟩
  · exact ⟨a, by simp [JSMap.get_modify_of_ne m k k₁ f hk, h]⟩

/-! ## Lemmas on numbers -/

theorem roundHalfEven_nonneg (x : ℚ) (hx : 0 ≤ x) : 0 ≤ roundHalfEven x := by
  have hf : 0 ≤ ⌊x⌋ := Int.floor_nonneg.mpr hx
  unfold roundHalfEven
  split
  · exact hf
  · split
    · omega
    · split
      · exact hf
      · omega

theorem pow2_pos (n : ℕ) : 0 < pow2 n := by
  have h : pow2 n = ((2 ^ n : ℕ) : ℚ) := by
    simp [pow2, Rat.ofInt]
  rw [h]
  exact_mod_cast Nat.pos_pow_of_pos n (by norm_num)

theorem zpow2_pos (k : ℤ) : 0 < zpow2 k := by
  unfold zpow2
  split
  · exact pow2_pos _
  · exact div_pos one_pos (pow2_pos _)

theorem roundMagnitude_nonneg (a : ℚ) (ha : 0 ≤ a) : 0 ≤ roundMagnitude a := by
  unfold roundMagnitude
  have h1 : 0 ≤ a / zpow2 (ulpExp a) := div_nonneg ha (zpow2_pos _).le
  have h2 : (0 : ℚ) ≤ (roundHalfEven (a / zpow2 (ulpExp a)) : ℚ) := by
    exact_mod_cast roundHalfEven_nonneg _ h1
  exact mul_nonneg h2 (zpow2_pos _).le

/-- Rounding a non-negative rational gives a non-negative double or `Infinity`. -/
theorem roundDouble_nonneg (q : ℚ) (hq : 0 ≤ q) : JSNum.le (.fin 0) (roundDouble q) = true := by
  unfold roundDouble
  rw [if_pos hq]
  split
  · rfl
  · simp [JSNum.le, roundMagnitude_nonneg q hq]

/-- A number passes the amount check exactly when it is finite and positive. -/
theorem amount_check_false (p : JSNum) :
    (!p.isFinite || p.le (.fin 0)) = false ↔ ∃ A, p = .fin A ∧ 0 < A := by
  cases p with
  | fin q =>
    simp [JSNum.isFinite, JSNum.le]
  | nan => simp [JSNum.isFinite]
  | posInf => simp [JSNum.isFinite]
  | negInf => simp [JSNum.isFinite]

theorem amount_check_true (p : JSNum) :
    (!p.isFinite || p.le (.fin 0)) = true ↔ invalidAmount p := by
  cases p with
  | fin q => simp [JSNum.isFinite, JSNum.le, invalidAmount]
  | nan => simp [JSNum.isFinite, invalidAmount]
  | posInf => simp [JSNum.isFinite, invalidAmount]
  | negInf => simp [JSNum.isFinite, invalidAmount]

/-- A debit that passed the funds check leaves a non-negative balance. -/
theorem nonneg_sub (x : JSNum) (A : ℚ) (hx : JSNum.le (.fin 0) x = true)
    (hlt : x.lt (.fin A) = false) : JSNum.le (.fin 0) (x.sub (.fin A)) = true := by
  cases x with
  | fin b =>
    simp only [JSNum.lt, decide_eq_false_iff_not, not_lt] at hlt
    simp only [JSNum.sub, JSNum.neg, JSNum.add]
    exact roundDouble_nonneg _ (by linarith)
  | nan => simp [JSNum.le] at hx
  | posInf => rfl
  | negInf => simp [JSNum.le] at hx

/-- A credit of a positive amount leaves a non-negative balance. -/
theorem nonneg_add (x : JSNum) (A : ℚ) (hx : JSNum.le (.fin 0) x = true) (hA : 0 < A) :
    JSNum.le (.fin 0) (x.add (.fin A)) = true := by
  cases x with
  | fin b =>
    simp only [JSNum.le, decide_eq_true_eq] at hx
    simp only [JSNum.add]
    exact roundDouble_nonneg _ (by linarith)
  | nan => simp [JSNum.le] at hx
  | posInf => rfl
  | negInf => simp [JSNum.le] at hx

/-! ## Lemmas on exact sums -/

theorem exactSum_modify_same (m : JSMap Account) (k : String) (f : Account → Account)
    (hf : ∀ a, (f a).balance = a.balance) :
    exactSum ((JSMap.values (JSMap.modify m k f)).map fun a => a.balance)
      = exactSum ((JSMap.values m).map fun a => a.balance) := by
  have h : (JSMap.values (JSMap.modify m k f)).map (fun a => a.balance)
      = (JSMap.values m).map fun a => a.balance := by
    induction m with
    | nil => rfl
    | cons p rest ih =>
      obtain ⟨k', v⟩ := p
      by_cases hk : k' = k
      · simp [JSMap.modify, JSMap.values, hk, hf]
      · simp only [JSMap.values] at ih
        simp [JSMap.modify, JSMap.values, hk, ih]
  rw [h]

theorem exactSum_modify (m : JSMap Account) (k : String) (f : Account → Account)
    (a : Account) (p p' : ℚ) (hg : JSMap.get m k = some a) (hp : a.balance = .fin p)
    (hp' : (f a).balance = .fin p') :
    exactSum ((JSMap.values (JSMap.modify m k f)).map fun a => a.balance)
      = (exactSum ((JSMap.values m).map fun a => a.balance)).map fun t => t - p + p' := by
  induction m with
  | nil => simp [JSMap.get] at hg
  | cons q rest ih =>
    obtain ⟨k', v⟩ := q
    by_cases hk : k' = k
    · simp [JSMap.get, hk] at hg
      subst hg
      simp only [JSMap.modify, hk, if_true, JSMap.values, List.map_cons, hp, hp', exactSum,
        Option.map_map]
      congr 1
      funext t
      simp only [Function.comp]
      ring
    · simp [JSMap.get, hk] at hg
      have := ih hg
      simp only [JSMap.values] at this
      simp only [JSMap.modify, hk, if_false, JSMap.values, List.map_cons]
      cases hv : v.balance with
      | fin b =>
        simp only [exactSum, this, Option.map_map]
        congr 1
        funext t
        simp only [Function.comp]
        ring
      | nan => simp [exactSum]
      | posInf => simp [exactSum]
      | negInf => simp [exactSum]

/-! ## The binade of a rational -/

theorem log2Fuel_spec (fuel : ℕ) :
    ∀ n, n ≤ fuel → n ≠ 0 →
      2 ^ log2Fuel fuel n ≤ n ∧ n < 2 ^ (log2Fuel fuel n + 1) := by
  induction fuel with
  | zero =>
    intro n hn h0
    omega
  | succ fuel ih =>
    intro n hn h0
    unfold log2Fuel
    split
    · rename_i h2
      have : n = 1 := by omega
      subst this
      simp
    · rename_i h2
      have hle : n / 2 ≤ fuel := by omega
      have hne : n / 2 ≠ 0 := by omega
      obtain ⟨h1, h3⟩ := ih (n / 2) hle hne
      rw [pow_succ, pow_succ]
      constructor <;> omega

/-- The integer part of the binary logarithm: `2 ^ floorLog2 n ≤ n < 2 ^ (floorLog2 n + 1)`. -/
theorem floorLog2_spec (n : ℕ) (h0 : n ≠ 0) :
    2 ^ floorLog2 n ≤ n ∧ n < 2 ^ (floorLog2 n + 1) :=
  log2Fuel_spec n n (le_refl n) h0

theorem pow2_eq (n : ℕ) : pow2 n = (2 : ℚ) ^ n := by
  simp [pow2, Rat.ofInt]

theorem zpow2_eq (k : ℤ) : zpow2 k = (2 : ℚ) ^ k := by
  unfold zpow2
  split
  · rename_i h
    rw [pow2_eq]
    conv_rhs => rw [← Int.toNat_of_nonneg h]
    rw [zpow_natCast]
  · rename_i h
    have hk : 0 ≤ -k := by omega
    rw [pow2_eq, one_div, ← zpow_natCast, Int.toNat_of_nonneg hk, zpow_neg, inv_inv]

/-- The binade of a positive rational `a`: `2 ^ binade a ≤ a < 2 ^ (binade a + 1)`. -/
theorem binade_spec (a : ℚ) (ha : 0 < a) :
    zpow2 (binade a) ≤ a ∧ a < zpow2 (binade a + 1) := by
  have hnum : 0 < a.num := Rat.num_pos.mpr ha
  have hn0 : a.num.toNat ≠ 0 := by omega
  have hd0 : a.den ≠ 0 := a.den_nz
  obtain ⟨n1, n2⟩ := floorLog2_spec a.num.toNat hn0
  obtain ⟨d1, d2⟩ := floorLog2_spec a.den hd0
  have hnq : ((a.num.toNat : ℕ) : ℚ) = (a.num : ℚ) := by
    have : ((a.num.toNat : ℕ) : ℤ) = a.num := Int.toNat_of_nonneg hnum.le
    exact_mod_cast this
  have hdq : (0 : ℚ) < (a.den : ℚ) := by exact_mod_cast a.den_pos
  have haeq : a = (a.num : ℚ) / (a.den : ℚ) := (Rat.num_div_den a).symm
  have n1q : (2 : ℚ) ^ floorLog2 a.num.toNat ≤ (a.num : ℚ) := by
    rw [← hnq]
    exact_mod_cast n1
  have n2q : (a.num : ℚ) < (2 : ℚ) ^ (floorLog2 a.num.toNat + 1) := by
    rw [← hnq]
    exact_mod_cast n2
  have d1q : (2 : ℚ) ^ floorLog2 a.den ≤ (a.den : ℚ) := by exact_mod_cast d1
  have d2q : (a.den : ℚ) < (2 : ℚ) ^ (floorLog2 a.den + 1) := by exact_mod_cast d2
  have h2 : (0 : ℚ) < 2 := by norm_num
  have hk1 : (2 : ℚ) ^ ((floorLog2 a.num.toNat : ℤ) - (floorLog2 a.den : ℤ) + 1)
      = (2 : ℚ) ^ (floorLog2 a.num.toNat + 1) / (2 : ℚ) ^ floorLog2 a.den := by
    rw [show ((floorLog2 a.num.toNat : ℤ) - (floorLog2 a.den : ℤ) + 1)
      = ((floorLog2 a.num.toNat + 1 : ℕ) : ℤ) - ((floorLog2 a.den : ℕ) : ℤ) by push_cast; ring]
    rw [zpow_sub₀ (by norm_num), zpow_natCast, zpow_natCast]
  have hk2 : (2 : ℚ) ^ ((floorLog2 a.num.toNat : ℤ) - (floorLog2 a.den : ℤ) - 1)
      = (2 : ℚ) ^ floorLog2 a.num.toNat / (2 : ℚ) ^ (floorLog2 a.den + 1) := by
    rw [show ((floorLog2 a.num.toNat : ℤ) - (floorLog2 a.den : ℤ) - 1)
      = ((floorLog2 a.num.toNat : ℕ) : ℤ) - ((floorLog2 a.den + 1 : ℕ) : ℤ) by push_cast; ring]
    rw [zpow_sub₀ (by norm_num), zpow_natCast, zpow_natCast]
  have hupper : a < (2 : ℚ) ^ ((floorLog2 a.num.toNat : ℤ) - (floorLog2 a.den : ℤ) + 1) := by
    rw [hk1]
    conv_lhs => rw [haeq]
    rw [div_lt_div_iff₀ hdq (pow_pos h2 _)]
    calc (a.num : ℚ) * 2 ^ floorLog2 a.den
        < 2 ^ (floorLog2 a.num.toNat + 1) * 2 ^ floorLog2 a.den :=
          mul_lt_mul_of_pos_right n2q (pow_pos h2 _)
      _ ≤ 2 ^ (floorLog2 a.num.toNat + 1) * (a.den : ℚ) :=
          mul_le_mul_of_nonneg_left d1q (pow_pos h2 _).le
  have hlower : (2 : ℚ) ^ ((floorLog2 a.num.toNat : ℤ) - (floorLog2 a.den : ℤ) - 1) ≤ a := by
    rw [hk2]
    conv_rhs => rw [haeq]
    rw [div_le_div_iff₀ (pow_pos h2 _) hdq]
    calc (2 : ℚ) ^ floorLog2 a.num.toNat * (a.den : ℚ)
        ≤ (a.num : ℚ) * (a.den : ℚ) := mul_le_mul_of_nonneg_right n1q hdq.le
      _ ≤ (a.num : ℚ) * 2 ^ (floorLog2 a.den + 1) :=
          mul_le_mul_of_nonneg_left d2q.le (by exact_mod_cast hnum.le)
  unfold binade
  split
  · rename_i hle
    exact ⟨hle, by rw [zpow2_eq]; exact hupper⟩
  · rename_i hnle
    rw [zpow2_eq] at hnle
    refine ⟨by rw [zpow2_eq]; exact hlower, ?_⟩
    rw [zpow2_eq, sub_add_cancel]
    exact not_le.mp hnle

/-- Rounding to the nearest integer: the result is at most one half away, and
exactly one half away only when it is even. -/
theorem roundHalfEven_spec (x : ℚ) :
    |x - roundHalfEven x| ≤ 1 / 2 ∧ (|x - roundHalfEven x| = 1 / 2 → roundHalfEven x % 2 = 0) := by
  have h0 : 0 ≤ x - ⌊x⌋ := sub_nonneg.mpr (Int.floor_le x)
  have h1 : x - ⌊x⌋ < 1 := by
    have := Int.lt_floor_add_one x
    linarith
  unfold roundHalfEven
  split
  · rename_i h
    rw [abs_of_nonneg h0]
    exact ⟨h.le, fun e => absurd e (ne_of_lt h)⟩
  · split
    · rename_i h
      have hneg : x - ((⌊x⌋ + 1 : ℤ) : ℚ) < 0 := by
        push_cast
        linarith
      have hlt : -(x - ((⌊x⌋ + 1 : ℤ) : ℚ)) < 1 / 2 := by
        push_cast
        linarith
      rw [abs_of_neg hneg]
      exact ⟨hlt.le, fun e => absurd e (ne_of_lt hlt)⟩
    · rename_i hge hle
      have hhalf : x - ⌊x⌋ = 1 / 2 := le_antisymm (not_lt.mp hle) (not_lt.mp hge)
      split
      · rename_i heven
        rw [abs_of_nonneg h0]
        exact ⟨hhalf.le, fun _ => heven⟩
      · rename_i hodd
        have hneg : x - ((⌊x⌋ + 1 : ℤ) : ℚ) < 0 := by
          push_cast
          linarith
        rw [abs_of_neg hneg]
        refine ⟨by push_cast; linarith, fun _ => ?_⟩
        omega

/-- The rounded magnitude is at most half a spacing away from the exact value. -/
theorem roundMagnitude_near (a : ℚ) :
    |a - roundMagnitude a| ≤ zpow2 (ulpExp a) / 2 := by
  have hu : 0 < zpow2 (ulpExp a) := by
    rw [zpow2_eq]
    exact zpow_pos (by norm_num) _
  have h := (roundHalfEven_spec (a / zpow2 (ulpExp a))).1
  have e : a - roundMagnitude a
      = (a / zpow2 (ulpExp a) - roundHalfEven (a / zpow2 (ulpExp a))) * zpow2 (ulpExp a) := by
    unfold roundMagnitude
    field_simp
    ring
  rw [e, abs_mul, abs_of_pos hu]
  calc |a / zpow2 (ulpExp a) - ↑(roundHalfEven (a / zpow2 (ulpExp a)))| * zpow2 (ulpExp a)
      ≤ 1 / 2 * zpow2 (ulpExp a) := mul_le_mul_of_nonneg_right h hu.le
    _ = zpow2 (ulpExp a) / 2 := by ring

/-! ## The shape of a transfer and of a credit -/

theorem getAccountByToken_get (s : State) (token : Option String) (k : String) (a : Account)
    (h : getAccountByToken s token = some (k, a)) : JSMap.get s.accountsByCard k = some a := by
  unfold getAccountByToken at h
  split at h
  · simp at h
  · split at h
    · simp at h
    · split at h
      · simp at h
      · rename_i card _ _
        cases hg : JSMap.get s.accountsByCard card with
        | none => simp [hg] at h
        | some b =>
          simp [hg] at h
          obtain ⟨h1, h2⟩ := h
          subst h1 h2
          exact hg

/-- A transfer whose checks pass: the answer and the store afterwards. -/
theorem transfer_eq_of_checks (B : Builtins) (env : Env) (s : State) (token : Option String)
    (toCardNumber amount : JSVal) (kx ky : String) (x y : Account) (A : ℚ)
    (hx : getAccountByToken s token = some (kx, x))
    (hk : normalizedInput B toCardNumber = some ky)
    (hy : JSMap.get s.accountsByCard ky = some y)
    (hA : toNumber B amount = some (.fin A)) (hpos : 0 < A)
    (hle : x.balance.lt (.fin A) = false) :
    transfer B env s token toCardNumber amount =
      (.transferred (transferTx env x y (.fin A)),
        { s with accountsByCard :=
            (JSMap.modify (JSMap.modify (JSMap.modify (JSMap.modify s.accountsByCard
              kx (debit (.fin A))) ky (credit (.fin A)))
              kx (push { transferTx env x y (.fin A) with direction := .sent }))
              ky (push { transferTx env x y (.fin A) with direction := .received })) }) := by
  have hc : (!(JSNum.fin A).isFinite || (JSNum.fin A).le (.fin 0)) = false :=
    (amount_check_false _).mpr ⟨A, rfl, hpos⟩
  simp only [transfer, hx, hk, hA, hy, hc, hle, transferTx]
  rfl

/-- A successful transfer passed the checks. -/
theorem transfer_checks_of_ok (B : Builtins) (env : Env) (s s' : State) (token : Option String)
    (toCardNumber amount : JSVal) (tx : Tx)
    (h : transfer B env s token toCardNumber amount = (.transferred tx, s')) :
    ∃ kx x ky y A, getAccountByToken s token = some (kx, x) ∧
      normalizedInput B toCardNumber = some ky ∧
      JSMap.get s.accountsByCard ky = some y ∧
      toNumber B amount = some (.fin A) ∧ 0 < A ∧ x.balance.lt (.fin A) = false := by
  unfold transfer at h
  split at h
  · simp at h
  · rename_i kx x hx
    split at h
    · simp at h
    · rename_i ky hk
      split at h
      · simp at h
      · rename_i p hp
        split at h
        · simp at h
        · rename_i y hy
          split at h
          · simp at h
          · rename_i hc
            split at h
            · simp at h
            · rename_i hlt
              obtain ⟨A, hA, hpos⟩ := (amount_check_false p).mp (by simpa using hc)
              subst hA
              exact ⟨kx, x, ky, y, A, hx, hk, hy, hp, hpos, by simpa using hlt⟩

/-- The possible outcomes of a transfer; all but success leave the state as it
was. -/
theorem transfer_cases (B : Builtins) (env : Env) (s : State) (token : Option String)
    (toCardNumber amount : JSVal) :
    transfer B env s token toCardNumber amount = (.error 401 "invalid session", s) ∨
    transfer B env s token toCardNumber amount = (.uncaught, s) ∨
    transfer B env s token toCardNumber amount = (.error 404 "recipient not found", s) ∨
    transfer B env s token toCardNumber amount = (.error 400 "invalid amount", s) ∨
    transfer B env s token toCardNumber amount = (.error 400 "insufficient funds", s) ∨
    ∃ tx, (transfer B env s token toCardNumber amount).1 = .transferred tx := by
  unfold transfer
  split
  · exact Or.inl rfl
  · split
    · exact Or.inr (Or.inl rfl)
    · split
      · exact Or.inr (Or.inl rfl)
      · split
        · exact Or.inr (Or.inr (Or.inl rfl))
        · split
          · exact Or.inr (Or.inr (Or.inr (Or.inl rfl)))
          · split
            · exact Or.inr (Or.inr (Or.inr (Or.inr (Or.inl rfl))))
            · exact Or.inr (Or.inr (Or.inr (Or.inr (Or.inr ⟨_, rfl⟩))))

/-- An admin credit whose checks pass: the answer and the store afterwards. -/
theorem adminIncrease_eq_of_checks (B : Builtins) (env : Env) (s : State)
    (adminToken : Option String) (cardNumber amount : JSVal) (t k : String) (a : Account)
    (A : ℚ) (hadm : requireAdmin s adminToken = some t)
    (hk : normalizedInput B cardNumber = some k)
    (ha : JSMap.get s.accountsByCard k = some a)
    (hA : toNumber B amount = some (.fin A)) (hpos : 0 < A) :
    adminIncrease B env s adminToken cardNumber amount =
      (.increased (a.balance.add (.fin A)),
        { s with accountsByCard :=
            (JSMap.modify (JSMap.modify s.accountsByCard k (credit (.fin A)))
              k (push (increaseRecord env a (.fin A)))) }) := by
  have hc : (!(JSNum.fin A).isFinite || (JSNum.fin A).le (.fin 0)) = false :=
    (amount_check_false _).mpr ⟨A, rfl, hpos⟩
  simp only [adminIncrease, hadm, hk, hA, ha, hc, increaseRecord]
  rfl

/-- The possible outcomes of an admin credit; all but success leave the state as
it was. -/
theorem adminIncrease_cases (B : Builtins) (env : Env) (s : State) (adminToken : Option String)
    (cardNumber amount : JSVal) :
    adminIncrease B env s adminToken cardNumber amount = (.error 401 "unauthorized", s) ∨
    adminIncrease B env s adminToken cardNumber amount = (.uncaught, s) ∨
    adminIncrease B env s adminToken cardNumber amount = (.error 404 "account not found", s) ∨
    adminIncrease B env s adminToken cardNumber amount = (.error 400 "invalid amount", s) ∨
    ∃ t k a A, requireAdmin s adminToken = some t ∧ normalizedInput B cardNumber = some k ∧
      JSMap.get s.accountsByCard k = some a ∧ toNumber B amount = some (.fin A) ∧ 0 < A := by
  unfold adminIncrease
  split
  · exact Or.inl rfl
  · rename_i t hadm
    split
    · exact Or.inr (Or.inl rfl)
    · rename_i k hk
      split
      · exact Or.inr (Or.inl rfl)
      · rename_i p hp
        split
        · exact Or.inr (Or.inr (Or.inl rfl))
        · rename_i a ha
          split
          · exact Or.inr (Or.inr (Or.inr (Or.inl rfl)))
          · rename_i hc
            obtain ⟨A, hA, hpos⟩ := (amount_check_false p).mp (by simpa using hc)
            subst hA
            exact Or.inr (Or.inr (Or.inr (Or.inr ⟨t, k, a, A, hadm, hk, ha, hp, hpos⟩)))

/-! ## The account objects after one request -/

/-- The account objects in the store after the four mutations of a transfer. -/
theorem mem_transfer (m : JSMap Account) (kx ky : String) (A : JSNum) (x y : Account)
    (r₁ r₂ : TxRecord) (hx : JSMap.get m kx = some x) (hy : JSMap.get m ky = some y)
    (p : String × Account)
    (hp : p ∈ JSMap.modify (JSMap.modify (JSMap.modify (JSMap.modify m kx (debit A))
        ky (credit A)) kx (push r₁)) ky (push r₂)) :
    p ∈ m ∨ (kx ≠ ky ∧ p.2 = push r₁ (debit A x)) ∨ (kx ≠ ky ∧ p.2 = push r₂ (credit A y)) ∨
      (kx = ky ∧ p.2 = push r₂ (push r₁ (credit A (debit A x)))) := by
  by_cases hk : kx = ky
  · subst hk
    rw [JSMap.modify_modify_self, JSMap.modify_modify_self, JSMap.modify_modify_self] at hp
    rcases JSMap.mem_modify _ _ _ _ hp with h | ⟨a, ha, hpa⟩
    · exact Or.inl h
    · rw [hx] at ha
      cases ha
      right; right; right
      exact ⟨rfl, by rw [hpa]; rfl⟩
  · rw [JSMap.modify_comm m kx ky _ _ hk, JSMap.modify_modify_self,
      JSMap.modify_comm _ ky kx _ _ (fun e => hk e.symm), JSMap.modify_modify_self] at hp
    rcases JSMap.mem_modify _ _ _ _ hp with h | ⟨a, ha, hpa⟩
    · rcases JSMap.mem_modify _ _ _ _ h with h' | ⟨b, hb, hpb⟩
      · exact Or.inl h'
      · rw [hx] at hb
        cases hb
        right; left
        exact ⟨hk, by rw [hpb]; rfl⟩
    · rw [JSMap.get_modify_of_ne m kx ky _ (fun e => hk e.symm), hy] at ha
      cases ha
      right; right; left
      exact ⟨hk, by rw [hpa]; rfl⟩

/-- The account objects in the store after the two mutations of an admin credit. -/
theorem mem_increase (m : JSMap Account) (k : String) (A : JSNum) (a : Account) (r : TxRecord)
    (ha : JSMap.get m k = some a) (p : String × Account)
    (hp : p ∈ JSMap.modify (JSMap.modify m k (credit A)) k (push r)) :
    p ∈ m ∨ p.2 = push r (credit A a) := by
  rw [JSMap.modify_modify_self] at hp
  rcases JSMap.mem_modify _ _ _ _ hp with h | ⟨b, hb, hpb⟩
  · exact Or.inl h
  · rw [ha] at hb
    cases hb
    right
    rw [hpb]
    rfl

/-- The store after `createAccount`: the store before, or the store before with
a new account at balance 0 and with an empty history. -/
theorem mem_createAccount (B : Builtins) (env : Env) (s s₁ : State) (name cardNumber : JSVal)
    (a : Account) (h : createAccount B env s name cardNumber = some (a, s₁))
    (p : String × Account) (hp : p ∈ s₁.accountsByCard) :
    p ∈ s.accountsByCard ∨ (p.2.balance = .fin 0 ∧ p.2.transactions = []) := by
  unfold createAccount at h
  split at h
  · simp at h
  · simp only at h
    split at h
    · simp only [Option.some.injEq, Prod.mk.injEq] at h
      rw [← h.2] at hp
      exact Or.inl hp
    · split at h
      · simp at h
      · simp only [Option.some.injEq, Prod.mk.injEq] at h
        rw [← h.2] at hp
        rcases JSMap.mem_set _ _ _ _ hp with h' | h'
        · exact Or.inl h'
        · right
          rw [h']
          exact ⟨rfl, rfl⟩

/-- Where an account object of the store after one request comes from: it was
there before, or it is a new account, or it is the source, the destination or
the single party of a transfer, or the target of an admin credit. -/
theorem mem_handle (B : Builtins) (env : Env) (s : State) (r : Request)
    (p : String × Account) (hp : p ∈ (handle B env s r).2.accountsByCard) :
    p ∈ s.accountsByCard ∨
    (p.2.balance = .fin 0 ∧ p.2.transactions = []) ∨
    (∃ x y A, (∃ k, (k, x) ∈ s.accountsByCard) ∧ 0 < A ∧ x.balance.lt (.fin A) = false ∧
      p.2 = push { transferTx env x y (.fin A) with direction := .sent } (debit (.fin A) x)) ∨
    (∃ x y A, (∃ k, (k, y) ∈ s.accountsByCard) ∧ 0 < A ∧
      p.2 = push { transferTx env x y (.fin A) with direction := .received }
        (credit (.fin A) y)) ∨
    (∃ x A, (∃ k, (k, x) ∈ s.accountsByCard) ∧ 0 < A ∧ x.balance.lt (.fin A) = false ∧
      p.2 = push { transferTx env x x (.fin A) with direction := .received }
        (push { transferTx env x x (.fin A) with direction := .sent }
          (credit (.fin A) (debit (.fin A) x)))) ∨
    (∃ a A, (∃ k, (k, a) ∈ s.accountsByCard) ∧ 0 < A ∧
      p.2 = push (increaseRecord env a (.fin A)) (credit (.fin A) a)) := by
  cases r with
  | register name cardNumber =>
    simp only [handle, register] at hp
    split at hp
    · exact Or.inl hp
    · split at hp
      · exact Or.inl hp
      · rename_i a s₁ hc
        rcases mem_createAccount B env s s₁ name cardNumber a hc p hp with h | h
        · exact Or.inl h
        · exact Or.inr (Or.inl h)
  | me token =>
    simp only [handle, me] at hp
    split at hp <;> exact Or.inl hp
  | transfer token toCardNumber amount =>
    simp only [handle] at hp
    rcases transfer_cases B env s token toCardNumber amount with
      h | h | h | h | h | ⟨tx, hres⟩
    · rw [h] at hp
      exact Or.inl hp
    · rw [h] at hp
      exact Or.inl hp
    · rw [h] at hp
      exact Or.inl hp
    · rw [h] at hp
      exact Or.inl hp
    · rw [h] at hp
      exact Or.inl hp
    · obtain ⟨kx, x, ky, y, A, hx, hk, hy, hA, hpos, hle⟩ :=
        transfer_checks_of_ok B env s _ token toCardNumber amount tx
          (Prod.ext hres rfl)
      have hgx := getAccountByToken_get s token kx x hx
      rw [transfer_eq_of_checks B env s token toCardNumber amount kx ky x y A hx hk hy hA hpos
        hle] at hp
      rcases mem_transfer _ _ _ _ _ _ _ _ hgx hy p hp with h | ⟨_, h⟩ | ⟨_, h⟩ | ⟨hkk, h⟩
      · exact Or.inl h
      · right; right; left
        exact ⟨x, y, A, ⟨kx, JSMap.mem_of_get _ _ _ hgx⟩, hpos, hle, h⟩
      · right; right; right; left
        exact ⟨x, y, A, ⟨_, JSMap.mem_of_get _ _ _ hy⟩, hpos, h⟩
      · right; right; right; right; left
        rw [← hkk, hgx] at hy
        cases hy
        exact ⟨x, A, ⟨kx, JSMap.mem_of_get _ _ _ hgx⟩, hpos, hle, h⟩
  | adminLogin code =>
    simp only [handle, adminLogin] at hp
    split at hp
    · split at hp <;> exact Or.inl hp
    · exact Or.inl hp
  | adminAccounts adminToken =>
    simp only [handle, adminAccounts] at hp
    split at hp <;> exact Or.inl hp
  | adminIncrease adminToken cardNumber amount =>
    simp only [handle] at hp
    rcases adminIncrease_cases B env s adminToken cardNumber amount with
      h | h | h | h | ⟨t, k, a, A, hadm, hk, ha, hA, hpos⟩
    · rw [h] at hp
      exact Or.inl hp
    · rw [h] at hp
      exact Or.inl hp
    · rw [h] at hp
      exact Or.inl hp
    · rw [h] at hp
      exact Or.inl hp
    · rw [adminIncrease_eq_of_checks B env s adminToken cardNumber amount t k a A hadm hk ha hA
        hpos] at hp
      rcases mem_increase _ _ _ _ _ ha p hp with h | h
      · exact Or.inl h
      · right; right; right; right; right
        exact ⟨a, A, ⟨_, JSMap.mem_of_get _ _ _ ha⟩, hpos, h⟩

/-! ## Invariants of the reachable states -/

/-- A property of account objects that every request preserves holds after every
sequence of requests. -/
theorem AllAccounts_run (B : Builtins) (P : Account → Prop)
    (hstep : ∀ env s r, AllAccounts P s → AllAccounts P (handle B env s r).2)
    (trace : List (Env × Request)) :
    ∀ s, AllAccounts P s → AllAccounts P (run B s trace) := by
  induction trace with
  | nil => exact fun s hs => hs
  | cons q rest ih =>
    intro s hs
    exact ih _ (hstep q.1 s q.2 hs)

theorem AllAccounts_empty (P : Account → Prop) : AllAccounts P State.empty := by
  intro p hp
  simp [State.empty] at hp

theorem nonneg_step (B : Builtins) (env : Env) (s : State) (r : Request)
    (hs : AllAccounts (fun a => JSNum.le (.fin 0) a.balance = true) s) :
    AllAccounts (fun a => JSNum.le (.fin 0) a.balance = true) (handle B env s r).2 := by
  intro p hp
  rcases mem_handle B env s r p hp with h | ⟨h, _⟩ | ⟨x, y, A, ⟨k, hk⟩, hpos, hle, h⟩ |
    ⟨x, y, A, ⟨k, hk⟩, hpos, h⟩ | ⟨x, A, ⟨k, hk⟩, hpos, hle, h⟩ | ⟨a, A, ⟨k, hk⟩, hpos, h⟩
  · exact hs p h
  · simp [h, JSNum.le]
  · simp only [h, push, debit]
    exact nonneg_sub _ _ (hs _ hk) hle
  · simp only [h, push, credit]
    exact nonneg_add _ _ (hs _ hk) hpos
  · simp only [h, push, credit, debit]
    exact nonneg_add _ _ (nonneg_sub _ _ (hs _ hk) hle) hpos
  · simp only [h, push, credit]
    exact nonneg_add _ _ (hs _ hk) hpos

theorem ledgerFold_push (r : TxRecord) (a : Account) :
    ledgerFold (push r a) = (ledgerFold a).add (signedAmount r) := by
  simp [ledgerFold, push, List.foldl_append]

theorem ledger_step (B : Builtins) (env : Env) (s : State) (r : Request)
    (hs : AllAccounts (fun a => a.balance = ledgerFold a) s) :
    AllAccounts (fun a => a.balance = ledgerFold a) (handle B env s r).2 := by
  intro p hp
  rcases mem_handle B env s r p hp with h | ⟨h, h'⟩ | ⟨x, y, A, ⟨k, hk⟩, hpos, hle, h⟩ |
    ⟨x, y, A, ⟨k, hk⟩, hpos, h⟩ | ⟨x, A, ⟨k, hk⟩, hpos, hle, h⟩ | ⟨a, A, ⟨k, hk⟩, hpos, h⟩
  · exact hs p h
  · simp [h, h', ledgerFold]
  · have hx : x.balance = ledgerFold x := hs _ hk
    rw [h, ledgerFold_push]
    show x.balance.add (JSNum.neg (.fin A)) = (ledgerFold x).add (JSNum.neg (.fin A))
    rw [hx]
  · have hy : y.balance = ledgerFold y := hs _ hk
    rw [h, ledgerFold_push]
    show y.balance.add (.fin A) = (ledgerFold y).add (.fin A)
    rw [hy]
  · have hx : x.balance = ledgerFold x := hs _ hk
    rw [h, ledgerFold_push, ledgerFold_push]
    show (x.balance.add (JSNum.neg (.fin A))).add (.fin A)
      = ((ledgerFold x).add (JSNum.neg (.fin A))).add (.fin A)
    rw [hx]
  · have ha : a.balance = ledgerFold a := hs _ hk
    rw [h, ledgerFold_push]
    show a.balance.add (.fin A) = (ledgerFold a).add (.fin A)
    rw [ha]

/-! ## Identity of an account across ledger operations -/

theorem get_modify_identity (m : JSMap Account) (k k₁ : String) (f : Account → Account)
    (hf : ∀ a, SameIdentity a (f a)) (a : Account)
    (h : ∃ b, JSMap.get m k₁ = some b ∧ SameIdentity a b) :
    ∃ b, JSMap.get (JSMap.modify m k f) k₁ = some b ∧ SameIdentity a b := by
  obtain ⟨b, hb, hab⟩ := h
  by_cases hk : k₁ = k
  · subst hk
    refine ⟨f b, by simp [JSMap.get_modify_self, hb], ?_⟩
    obtain ⟨h1, h2, h3⟩ := hf b
    obtain ⟨g1, g2, g3⟩ := hab
    exact ⟨h1.trans g1, h2.trans g2, h3.trans g3⟩
  · exact ⟨b, by simp [JSMap.get_modify_of_ne m k k₁ f hk, hb], hab⟩

theorem get_handle_identity (B : Builtins) (env : Env) (s : State) (r : Request)
    (hop : r.isLedgerOp = true) (k : String) (a : Account)
    (h : ∃ b, JSMap.get s.accountsByCard k = some b ∧ SameIdentity a b) :
    ∃ b, JSMap.get (handle B env s r).2.accountsByCard k = some b ∧ SameIdentity a b := by
  cases r with
  | transfer token toCardNumber amount =>
    simp only [handle]
    rcases transfer_cases B env s token toCardNumber amount with
      e | e | e | e | e | ⟨tx, hres⟩
    · rw [e]; exact h
    · rw [e]; exact h
    · rw [e]; exact h
    · rw [e]; exact h
    · rw [e]; exact h
    · obtain ⟨kx, x, ky, y, A, hx, hk, hy, hA, hpos, hle⟩ :=
        transfer_checks_of_ok B env s _ token toCardNumber amount tx (Prod.ext hres rfl)
      rw [transfer_eq_of_checks B env s token toCardNumber amount kx ky x y A hx hk hy hA hpos
        hle]
      simp only
      refine get_modify_identity _ _ _ _ ?_ _ ?_
      · exact fun a => ⟨rfl, rfl, rfl⟩
      refine get_modify_identity _ _ _ _ ?_ _ ?_
      · exact fun a => ⟨rfl, rfl, rfl⟩
      refine get_modify_identity _ _ _ _ ?_ _ ?_
      · exact fun a => ⟨rfl, rfl, rfl⟩
      refine get_modify_identity _ _ _ _ ?_ _ ?_
      · exact fun a => ⟨rfl, rfl, rfl⟩
      exact h
  | adminIncrease adminToken cardNumber amount =>
    simp only [handle]
    rcases adminIncrease_cases B env s adminToken cardNumber amount with
      e | e | e | e | ⟨t, k', a', A, hadm, hk, ha, hA, hpos⟩
    · rw [e]; exact h
    · rw [e]; exact h
    · rw [e]; exact h
    · rw [e]; exact h
    · rw [adminIncrease_eq_of_checks B env s adminToken cardNumber amount t k' a' A hadm hk ha
        hA hpos]
      simp only
      refine get_modify_identity _ _ _ _ ?_ _ ?_
      · exact fun a => ⟨rfl, rfl, rfl⟩
      refine get_modify_identity _ _ _ _ ?_ _ ?_
      · exact fun a => ⟨rfl, rfl, rfl⟩
      exact h
  | register _ _ => simp [Request.isLedgerOp] at hop
  | me _ => simp [Request.isLedgerOp] at hop
  | adminLogin _ => simp [Request.isLedgerOp] at hop
  | adminAccounts _ => simp [Request.isLedgerOp] at hop

theorem get_run_identity (B : Builtins) (ops : List (Env × Request))
    (hops : ∀ q ∈ ops, q.2.isLedgerOp = true) (k : String) (a : Account) :
    ∀ s, (∃ b, JSMap.get s.accountsByCard k = some b ∧ SameIdentity a b) →
      ∃ b, JSMap.get (run B s ops).accountsByCard k = some b ∧ SameIdentity a b := by
  induction ops with
  | nil => exact fun s h => h
  | cons q rest ih =>
    intro s h
    exact ih (fun q' hq' => hops q' (List.mem_cons_of_mem _ hq')) _
      (get_handle_identity B q.1 s q.2 (hops q (List.mem_cons_self _ _)) k a h)

/-- After `createAccount` with a card that normalises to a non-empty string, the
account it returned is stored under that string. -/
theorem createAccount_get (B : Builtins) (env : Env) (s s₁ : State) (name cardNumber : JSVal)
    (cardStr : String) (a : Account) (hc : toStr B cardNumber = some cardStr)
    (hne : normalizeCard cardStr ≠ "")
    (h : createAccount B env s name cardNumber = some (a, s₁)) :
    JSMap.get s₁.accountsByCard (normalizeCard cardStr) = some a := by
  unfold createAccount at h
  rw [hc] at h
  simp only at h
  split at h
  · rename_i existing he
    simp only [Option.some.injEq, Prod.mk.injEq] at h
    rw [← h.1, ← h.2]
    exact he
  · split at h
    · simp at h
    · simp only [hne, ne_eq, not_false_eq_true, if_true, Option.some.injEq,
        Prod.mk.injEq] at h
      rw [← h.1, ← h.2]
      exact JSMap.get_set_self _ _ _

/-- A call of `createAccount` with a card that is already registered returns the stored
account and leaves the store as it was. -/
theorem createAccount_existing (B : Builtins) (env : Env) (s : State) (name cardNumber : JSVal)
    (cardStr : String) (a : Account) (hc : toStr B cardNumber = some cardStr)
    (h : JSMap.get s.accountsByCard (normalizeCard cardStr) = some a) :
    createAccount B env s name cardNumber = some (a, s) := by
  simp [createAccount, hc, h]

/-! ## Admin sessions -/

theorem requireAdmin_of_mem (s : State) (t : String) (ht : t ∈ s.adminSessions)
    (hne : t ≠ "") : requireAdmin s (some t) = some t := by
  simp [requireAdmin, ht, hne]

theorem requireAdmin_none (s : State) (adminToken : Option String)
    (h : ∀ t, adminToken = some t → t ∉ s.adminSessions) : requireAdmin s adminToken = none := by
  cases adminToken with
  | none => rfl
  | some t => simp [requireAdmin, h t rfl]

theorem adm_append_ne_empty (x : String) : "adm_" ++ x ≠ "" := by
  intro h
  have := congrArg String.length h
  simp only [String.length_append] at this
  have h4 : "adm_".length = 4 := by decide
  have h0 : "".length = 0 := by decide
  omega

/-- Every request but an admin login with the configured code leaves the set of
admin tokens as it was. -/
theorem handle_adminSessions (B : Builtins) (env : Env) (s : State) (r : Request) :
    (handle B env s r).2.adminSessions = s.adminSessions ∨
      r = .adminLogin (.str ADMIN_ACCESS_CODE) := by
  cases r with
  | register name cardNumber =>
    left
    simp only [handle, register]
    split
    · rfl
    · split
      · rfl
      · rename_i a s₁ hc
        simp only
        unfold createAccount at hc
        split at hc
        · simp at hc
        · simp only at hc
          split at hc
          · simp only [Option.some.injEq, Prod.mk.injEq] at hc
            rw [← hc.2]
          · split at hc
            · simp at hc
            · simp only [Option.some.injEq, Prod.mk.injEq] at hc
              rw [← hc.2]
  | me token =>
    left
    simp only [handle, me]
    split <;> rfl
  | transfer token toCardNumber amount =>
    left
    simp only [handle]
    rcases transfer_cases B env s token toCardNumber amount with
      e | e | e | e | e | ⟨tx, hres⟩
    · rw [e]
    · rw [e]
    · rw [e]
    · rw [e]
    · rw [e]
    · obtain ⟨kx, x, ky, y, A, hx, hk, hy, hA, hpos, hle⟩ :=
        transfer_checks_of_ok B env s _ token toCardNumber amount tx (Prod.ext hres rfl)
      rw [transfer_eq_of_checks B env s token toCardNumber amount kx ky x y A hx hk hy hA hpos
        hle]
  | adminLogin code =>
    simp only [handle, adminLogin]
    split
    · rename_i c
      split
      · exact Or.inl rfl
      · rename_i hc
        right
        rw [not_not.mp hc]
    · exact Or.inl rfl
  | adminAccounts adminToken =>
    left
    simp only [handle, adminAccounts]
    split <;> rfl
  | adminIncrease adminToken cardNumber amount =>
    left
    simp only [handle]
    rcases adminIncrease_cases B env s adminToken cardNumber amount with
      e | e | e | e | ⟨t, k, a, A, hadm, hk, ha, hA, hpos⟩
    · rw [e]
    · rw [e]
    · rw [e]
    · rw [e]
    · rw [adminIncrease_eq_of_checks B env s adminToken cardNumber amount t k a A hadm hk ha hA
        hpos]

/-- The admin tokens of a reachable state are not empty strings. -/
theorem adminSessions_ne_empty (B : Builtins) (trace : List (Env × Request)) :
    ∀ s, "" ∉ s.adminSessions → "" ∉ (run B s trace).adminSessions := by
  induction trace with
  | nil => exact fun s h => h
  | cons q rest ih =>
    intro s h
    apply ih
    rcases handle_adminSessions B q.1 s q.2 with e | e
    · rw [e]
      exact h
    · rw [e]
      simp only [handle, adminLogin, ne_eq, not_true_eq_false, if_false, setAdd]
      split
      · exact h
      · intro hm
        rcases List.mem_append.mp hm with h1 | h1
        · exact h h1
        · simp at h1
          exact adm_append_ne_empty _ h1.symm

/-! ## The properties of the specification -/

/-- C1, counterexample: the claim as stated fails in two ways.  With Alice at 100,
her transfer of 40 to her own card is answered `ok` and leaves her balance at
100, not at 100 - 40.  With Bob at 1 and Alice at `2 ^ 53`, the transfer of 1
from Bob to Alice is answered `ok`, takes Bob to 0 and leaves Alice at `2 ^ 53`,
not at `2 ^ 53 + 1`, so the sum of the balances drops by 1. -/
theorem conservation_fails :
    ((transfer demoBuiltins (demoEnv "5") scenarioState (some "tok1") (.str aliceCard)
        (.num (.fin 40))).1
      = .transferred ⟨"id5", aliceCard, aliceCard, .fin 40, "DBL", "t5"⟩ ∧
    balanceOf scenarioState aliceCard = some (.fin 100) ∧
    balanceOf (transfer demoBuiltins (demoEnv "5") scenarioState (some "tok1") (.str aliceCard)
        (.num (.fin 40))).2 aliceCard = some (.fin 100) ∧
    (100 : ℚ) ≠ 100 - 40) ∧
    ((transfer demoBuiltins (demoEnv "6") (run demoBuiltins bigState [unitCreditBob])
        (some "tok2") (.str aliceCard) (.num (.fin 1))).1
      = .transferred ⟨"id6", bobCard, aliceCard, .fin 1, "DBL", "t6"⟩ ∧
    balanceOf (run demoBuiltins bigState [unitCreditBob]) bobCard = some (.fin 1) ∧
    balanceOf (run demoBuiltins bigState [unitCreditBob]) aliceCard = some (.fin twoPow53) ∧
    balanceOf (transfer demoBuiltins (demoEnv "6") (run demoBuiltins bigState [unitCreditBob])
        (some "tok2") (.str aliceCard) (.num (.fin 1))).2 bobCard = some (.fin 0) ∧
    balanceOf (transfer demoBuiltins (demoEnv "6") (run demoBuiltins bigState [unitCreditBob])
        (some "tok2") (.str aliceCard) (.num (.fin 1))).2 aliceCard = some (.fin twoPow53) ∧
    totalBalance (run demoBuiltins bigState [unitCreditBob]) = some (twoPow53 + 1) ∧
    totalBalance (transfer demoBuiltins (demoEnv "6") (run demoBuiltins bigState [unitCreditBob])
        (some "tok2") (.str aliceCard) (.num (.fin 1))).2 = some twoPow53 ∧
    twoPow53 ≠ twoPow53 + 1) := by
  decide

/-- C1 (amended): a successful transfer of amount `A` from the account `x` stored
under `kx` to the account `y` stored under the normalised destination card `ky`.
When the two cards differ, the source balance becomes the double nearest to its
previous value minus `A` and the destination balance the double nearest to its
previous value plus `A`; if neither result is rounded (both are doubles), the
source balance is its previous value minus `A`, the destination balance its
previous value plus `A` and the sum of all balances is unchanged.  When the two
cards are the same, the balance becomes its previous value minus `A` and then
plus `A`, each rounded; if the previous value and the difference are doubles,
the balance and the sum of all balances are unchanged. -/
theorem transfer_conservation (B : Builtins) (env : Env) (s s' : State)
    (token : Option String) (toCardNumber amount : JSVal) (tx : Tx)
    (h : transfer B env s token toCardNumber amount = (.transferred tx, s')) :
    ∃ kx x ky y A, getAccountByToken s token = some (kx, x) ∧
      normalizedInput B toCardNumber = some ky ∧
      JSMap.get s.accountsByCard ky = some y ∧
      toNumber B amount = some (.fin A) ∧ tx.amount = .fin A ∧
      (kx ≠ ky →
        balanceOf s' kx = some (x.balance.sub (.fin A)) ∧
        balanceOf s' ky = some (y.balance.add (.fin A)) ∧
        ∀ bx yb, x.balance = .fin bx → y.balance = .fin yb →
          IsDouble (bx - A) → IsDouble (yb + A) →
          balanceOf s' kx = some (.fin (bx - A)) ∧
          balanceOf s' ky = some (.fin (yb + A)) ∧
          totalBalance s' = totalBalance s) ∧
      (kx = ky →
        balanceOf s' kx = some ((x.balance.sub (.fin A)).add (.fin A)) ∧
        ∀ bx, x.balance = .fin bx → IsDouble (bx - A) → IsDouble bx →
          balanceOf s' kx = some (.fin bx) ∧ totalBalance s' = totalBalance s) := by
  obtain ⟨kx, x, ky, y, A, hx, hk, hy, hA, hpos, hle⟩ :=
    transfer_checks_of_ok B env s s' token toCardNumber amount tx h
  have hgx := getAccountByToken_get s token kx x hx
  rw [transfer_eq_of_checks B env s token toCardNumber amount kx ky x y A hx hk hy hA hpos hle]
    at h
  simp only [Prod.mk.injEq, Response.transferred.injEq] at h
  obtain ⟨htx, hs⟩ := h
  subst htx
  refine ⟨kx, x, ky, y, A, hx, hk, hy, hA, rfl, ?_, ?_⟩
  · intro hne
    have hne' : ky ≠ kx := fun e => hne e.symm
    have hbx : balanceOf s' kx = some (x.balance.sub (.fin A)) := by
      rw [← hs]
      simp [balanceOf, JSMap.get_modify_self, JSMap.get_modify_of_ne, hne, hne', hgx,
        debit, push]
    have hby : balanceOf s' ky = some (y.balance.add (.fin A)) := by
      rw [← hs]
      simp [balanceOf, JSMap.get_modify_self, JSMap.get_modify_of_ne, hne, hne', hy,
        credit, push]
    refine ⟨hbx, hby, ?_⟩
    intro bx yb ex ey dx dy
    have e1 : x.balance.sub (.fin A) = .fin (bx - A) := by
      rw [ex]
      simp only [JSNum.sub, JSNum.neg, JSNum.add, ← sub_eq_add_neg]
      exact dx
    have e2 : y.balance.add (.fin A) = .fin (yb + A) := by
      rw [ey]
      exact dy
    refine ⟨by rw [hbx, e1], by rw [hby, e2], ?_⟩
    rw [← hs]
    simp only [totalBalance]
    rw [exactSum_modify_same _ ky (push _) (fun a => rfl),
      exactSum_modify_same _ kx (push _) (fun a => rfl),
      exactSum_modify _ ky (credit (.fin A)) y yb (yb + A)
        (by rw [JSMap.get_modify_of_ne _ _ _ _ hne', hy]) ey (by simp only [credit]; exact e2),
      exactSum_modify _ kx (debit (.fin A)) x bx (bx - A) hgx ex
        (by simp only [debit]; exact e1),
      Option.map_map]
    have hid : ((fun t => t - yb + (yb + A)) ∘ fun t => t - bx + (bx - A)) = id := by
      funext t
      simp only [Function.comp, id]
      ring
    rw [hid]
    simp
  · intro he
    subst he
    have hbx : balanceOf s' kx = some ((x.balance.sub (.fin A)).add (.fin A)) := by
      rw [← hs]
      simp [balanceOf, JSMap.get_modify_self, hgx, debit, credit, push]
    refine ⟨hbx, ?_⟩
    intro bx ex dx db
    have e1 : (x.balance.sub (.fin A)).add (.fin A) = .fin bx := by
      rw [ex]
      simp only [JSNum.sub, JSNum.neg, JSNum.add, ← sub_eq_add_neg]
      have : roundDouble (bx - A) = .fin (bx - A) := dx
      rw [this]
      simp only [JSNum.add, sub_add_cancel]
      exact db
    refine ⟨by rw [hbx, e1], ?_⟩
    rw [← hs]
    simp only [totalBalance]
    rw [JSMap.modify_modify_self, JSMap.modify_modify_self, JSMap.modify_modify_self]
    rw [exactSum_modify _ kx _ x bx bx hgx ex
      (by simp only [Function.comp, push, credit, debit]; exact e1)]
    have hid : (fun t : ℚ => t - bx + bx) = id := by
      funext t
      simp only [id]
      ring
    rw [hid]
    simp

/-- C1, witness of the amended statement on the example scenario: Alice at 100
transfers 40 to Bob at 0, giving 60 and 40; no result is rounded. -/
theorem transfer_conservation_witness :
    (transfer demoBuiltins scenarioTransfer.1 scenarioState (some "tok1") (.str bobCard)
        (.num (.fin 40))
      = (.transferred ⟨"id5", aliceCard, bobCard, .fin 40, "DBL", "t5"⟩, scenarioAfter)) ∧
    (balanceOf scenarioState aliceCard = some (.fin 100) ∧
      balanceOf scenarioState bobCard = some (.fin 0) ∧
      balanceOf scenarioAfter aliceCard = some (.fin 60) ∧
      balanceOf scenarioAfter bobCard = some (.fin 40) ∧
      IsDouble (100 - 40) ∧ IsDouble (0 + 40) ∧
      totalBalance scenarioState = some 100 ∧ totalBalance scenarioAfter = some 100) ∧
    ∃ kx x ky y A, getAccountByToken scenarioState (some "tok1") = some (kx, x) ∧
      normalizedInput demoBuiltins (.str bobCard) = some ky ∧
      JSMap.get scenarioState.accountsByCard ky = some y ∧
      toNumber demoBuiltins (.num (.fin 40)) = some (.fin A) ∧
      (⟨"id5", aliceCard, bobCard, .fin 40, "DBL", "t5"⟩ : Tx).amount = .fin A ∧
      (kx ≠ ky →
        balanceOf scenarioAfter kx = some (x.balance.sub (.fin A)) ∧
        balanceOf scenarioAfter ky = some (y.balance.add (.fin A)) ∧
        ∀ bx yb, x.balance = .fin bx → y.balance = .fin yb →
          IsDouble (bx - A) → IsDouble (yb + A) →
          balanceOf scenarioAfter kx = some (.fin (bx - A)) ∧
          balanceOf scenarioAfter ky = some (.fin (yb + A)) ∧
          totalBalance scenarioAfter = totalBalance scenarioState) ∧
      (kx = ky →
        balanceOf scenarioAfter kx = some ((x.balance.sub (.fin A)).add (.fin A)) ∧
        ∀ bx, x.balance = .fin bx → IsDouble (bx - A) → IsDouble bx →
          balanceOf scenarioAfter kx = some (.fin bx) ∧
          totalBalance scenarioAfter = totalBalance scenarioState) :=
  ⟨by decide, by decide,
    transfer_conservation demoBuiltins scenarioTransfer.1 scenarioState scenarioAfter
      (some "tok1") (.str bobCard) (.num (.fin 40))
      ⟨"id5", aliceCard, bobCard, .fin 40, "DBL", "t5"⟩ (by decide)⟩

/-- C2: in every state reached from the empty store by a sequence of requests
(of any of the six kinds, accepted or rejected), every account has a balance
greater than or equal to zero (`0 <= balance` holds; the balance is a
non-negative double or `Infinity`). -/
theorem balances_nonneg (B : Builtins) (trace : List (Env × Request)) :
    AllAccounts (fun a => JSNum.le (.fin 0) a.balance = true) (run B State.empty trace) :=
  AllAccounts_run B _ (nonneg_step B) trace _ (AllAccounts_empty _)

/-- C3, counterexample: the claim as stated fails when an addition is rounded.
After credits of `2 ^ 53` and of 1 the balance of Alice is `2 ^ 53` while the
signed amounts of her history sum to `2 ^ 53 + 1`; after a credit of `2 ^ 53 + 2`
and a transfer of 1 to her own card her balance is `2 ^ 53` while her history
sums to `2 ^ 53 + 2`. -/
theorem ledger_sum_differs_from_balance :
    (balanceOf (run demoBuiltins bigState [unitCredit]) aliceCard = some (.fin twoPow53) ∧
      (JSMap.get (run demoBuiltins bigState [unitCredit]).accountsByCard aliceCard).map ledgerSum
        = some (some (twoPow53 + 1)) ∧
      twoPow53 ≠ twoPow53 + 1) ∧
    (balanceOf (run demoBuiltins registeredState
        [(demoEnv "4", .adminIncrease (some "adm_id3") (.str aliceCard)
            (.num (.fin (twoPow53 + 2)))),
          (demoEnv "5", .transfer (some "tok1") (.str aliceCard) (.num (.fin 1)))]) aliceCard
        = some (.fin twoPow53) ∧
      (JSMap.get (run demoBuiltins registeredState
        [(demoEnv "4", .adminIncrease (some "adm_id3") (.str aliceCard)
            (.num (.fin (twoPow53 + 2)))),
          (demoEnv "5", .transfer (some "tok1") (.str aliceCard)
            (.num (.fin 1)))]).accountsByCard aliceCard).map ledgerSum
        = some (some (twoPow53 + 2)) ∧
      twoPow53 ≠ twoPow53 + 2) := by
  decide

/-- C3 (amended): in every state reached from the empty store by a sequence of
requests, the balance of every account is the sum of the signed amounts of its
stored history (`sent` negative, `received` and `increase` positive) taken from
0 in the order of the history with the addition of doubles, every partial sum
rounded to the nearest double; a transfer from an account to itself is one of
the requests covered. -/
theorem ledger_consistent (B : Builtins) (trace : List (Env × Request)) :
    AllAccounts (fun a => a.balance = ledgerFold a) (run B State.empty trace) :=
  AllAccounts_run B _ (ledger_step B) trace _ (AllAccounts_empty _)

/-- C4, counterexample: the claim as stated fails for card inputs that normalise
to the empty string: two calls of `createAccount` with the inputs `""` and `"- -"`
return two accounts with different ids and card numbers, and the second call
adds a second account. -/
theorem createAccount_empty_card_not_idempotent :
    (toStr demoBuiltins (.str "")).map normalizeCard
      = (toStr demoBuiltins (.str "- -")).map normalizeCard ∧
    (createAccount demoBuiltins (demoEnv "1") State.empty (.str "Alice") (.str "")
      = some (⟨"id1", aliceName, "0000000000000001", .fin 0, "DBL", "t1", []⟩,
          ⟨[("0000000000000001",
              ⟨"id1", aliceName, "0000000000000001", .fin 0, "DBL", "t1", []⟩)], [], []⟩)) ∧
    (createAccount demoBuiltins (demoEnv "2")
        ⟨[("0000000000000001",
            ⟨"id1", aliceName, "0000000000000001", .fin 0, "DBL", "t1", []⟩)], [], []⟩
        (.str "Alice") (.str "- -")
      = some (⟨"id2", aliceName, "0000000000000002", .fin 0, "DBL", "t2", []⟩,
          ⟨[("0000000000000001",
              ⟨"id1", aliceName, "0000000000000001", .fin 0, "DBL", "t1", []⟩),
            ("0000000000000002",
              ⟨"id2", aliceName, "0000000000000002", .fin 0, "DBL", "t2", []⟩)], [], []⟩)) := by
  decide

/-- C4 (amended): for card inputs that normalise to the same non-empty string, a call
of `createAccount` that returns, any sequence of transfers and credits, and a
second call of `createAccount`: the second call returns, leaves the store as it was
(no account is added, no balance or name changes) and returns the account stored
under that card, which has the id, the card number and the name of the account
the first call returned. -/
theorem createAccount_idempotent (B : Builtins) (env₁ env₂ : Env) (s s₁ : State)
    (n₁ n₂ c₁ c₂ : JSVal) (t₁ t₂ : String) (a₁ : Account) (ops : List (Env × Request))
    (h₁ : toStr B c₁ = some t₁) (h₂ : toStr B c₂ = some t₂)
    (hnorm : normalizeCard t₁ = normalizeCard t₂)
    (hne : normalizeCard t₁ ≠ "")
    (hfirst : createAccount B env₁ s n₁ c₁ = some (a₁, s₁))
    (hops : ∀ q ∈ ops, q.2.isLedgerOp = true) :
    ∃ a₂, createAccount B env₂ (run B s₁ ops) n₂ c₂ = some (a₂, run B s₁ ops) ∧
      JSMap.get (run B s₁ ops).accountsByCard (normalizeCard t₁) = some a₂ ∧
      SameIdentity a₁ a₂ := by
  obtain ⟨b, hb, hid⟩ := get_run_identity B ops hops (normalizeCard t₁) a₁ s₁
    ⟨a₁, createAccount_get B env₁ s s₁ n₁ c₁ t₁ a₁ h₁ hne hfirst, rfl, rfl, rfl⟩
  have hb' := hb
  rw [hnorm] at hb'
  exact ⟨b, createAccount_existing B env₂ _ n₂ c₂ t₂ b h₂ hb', hb, hid⟩

/-- C4, witness of the amended statement: `createAccount` makes the account of Alice,
an admin credits it by 100, and a second call with the name "Eve" and her card
written in groups of four returns her account, at 100 and named "Alice", and
changes nothing. -/
theorem createAccount_idempotent_witness :
    (toStr demoBuiltins (.str aliceCard) = some aliceCard ∧
      toStr demoBuiltins (.str aliceCardSpaced) = some aliceCardSpaced ∧
      normalizeCard aliceCard = normalizeCard aliceCardSpaced ∧
      normalizeCard aliceCard ≠ "" ∧
      createAccount demoBuiltins (demoEnv "1") adminOnlyState (.str "Alice") (.str aliceCard)
        = some (⟨"id1", aliceName, aliceCard, .fin 0, "DBL", "t1", []⟩,
            ⟨[(aliceCard, ⟨"id1", aliceName, aliceCard, .fin 0, "DBL", "t1", []⟩)], [],
              ["adm_id3"]⟩) ∧
      (∀ q ∈ [scenarioCredit], q.2.isLedgerOp = true) ∧
      createAccount demoBuiltins (demoEnv "7")
          (run demoBuiltins
            ⟨[(aliceCard, ⟨"id1", aliceName, aliceCard, .fin 0, "DBL", "t1", []⟩)], [],
              ["adm_id3"]⟩ [scenarioCredit])
          (.str "Eve") (.str aliceCardSpaced)
        = some (⟨"id1", aliceName, aliceCard, .fin 100, "DBL", "t1",
              [⟨⟨"id4", "ADMIN", aliceCard, .fin 100, "DBL", "t4"⟩, .increase⟩]⟩,
            ⟨[(aliceCard, ⟨"id1", aliceName, aliceCard, .fin 100, "DBL", "t1",
              [⟨⟨"id4", "ADMIN", aliceCard, .fin 100, "DBL", "t4"⟩, .increase⟩]⟩)], [],
              ["adm_id3"]⟩)) ∧
    ∃ a₂, createAccount demoBuiltins (demoEnv "7")
          (run demoBuiltins
            ⟨[(aliceCard, ⟨"id1", aliceName, aliceCard, .fin 0, "DBL", "t1", []⟩)], [],
              ["adm_id3"]⟩ [scenarioCredit])
          (.str "Eve") (.str aliceCardSpaced)
        = some (a₂, run demoBuiltins
            ⟨[(aliceCard, ⟨"id1", aliceName, aliceCard, .fin 0, "DBL", "t1", []⟩)], [],
              ["adm_id3"]⟩ [scenarioCredit]) ∧
      JSMap.get (run demoBuiltins
            ⟨[(aliceCard, ⟨"id1", aliceName, aliceCard, .fin 0, "DBL", "t1", []⟩)], [],
              ["adm_id3"]⟩ [scenarioCredit]).accountsByCard (normalizeCard aliceCard)
        = some a₂ ∧
      SameIdentity ⟨"id1", aliceName, aliceCard, .fin 0, "DBL", "t1", []⟩ a₂ :=
  ⟨by decide,
    createAccount_idempotent demoBuiltins (demoEnv "1") (demoEnv "7") adminOnlyState
      ⟨[(aliceCard, ⟨"id1", aliceName, aliceCard, .fin 0, "DBL", "t1", []⟩)], [], ["adm_id3"]⟩
      (.str "Alice") (.str "Eve") (.str aliceCard) (.str aliceCardSpaced)
      aliceCard aliceCardSpaced ⟨"id1", aliceName, aliceCard, .fin 0, "DBL", "t1", []⟩
      [scenarioCredit]
      (by decide) (by decide) (by decide) (by decide) (by decide) (by decide)⟩

/-- C5: a transfer or an admin credit that is answered with an error (whatever
its status and message) leaves the whole state as it was: accounts, balances,
histories, sessions and admin tokens. -/
theorem rejected_ledger_op_no_change (B : Builtins) (env : Env) (s : State) (r : Request)
    (status : Nat) (message : String) (hop : r.isLedgerOp = true)
    (herr : (handle B env s r).1 = .error status message) :
    (handle B env s r).2 = s := by
  cases r with
  | transfer token toCardNumber amount =>
    simp only [handle] at herr ⊢
    rcases transfer_cases B env s token toCardNumber amount with
      e | e | e | e | e | ⟨tx, hres⟩
    · rw [e]
    · rw [e]
    · rw [e]
    · rw [e]
    · rw [e]
    · rw [hres] at herr
      cases herr
  | adminIncrease adminToken cardNumber amount =>
    simp only [handle] at herr ⊢
    rcases adminIncrease_cases B env s adminToken cardNumber amount with
      e | e | e | e | ⟨t, k, a, A, hadm, hk, ha, hA, hpos⟩
    · rw [e]
    · rw [e]
    · rw [e]
    · rw [e]
    · rw [adminIncrease_eq_of_checks B env s adminToken cardNumber amount t k a A hadm hk ha hA
        hpos] at herr
      cases herr
  | register _ _ => simp [Request.isLedgerOp] at hop
  | me _ => simp [Request.isLedgerOp] at hop
  | adminLogin _ => simp [Request.isLedgerOp] at hop
  | adminAccounts _ => simp [Request.isLedgerOp] at hop

/-- C5, witness on the end of the example scenario: with Alice at 60, her
transfer of 1000 to Bob is rejected for insufficient funds and the state stays
as it was. -/
theorem rejected_ledger_op_no_change_witness :
    ((Request.transfer (some "tok1") (.str bobCard) (.num (.fin 1000))).isLedgerOp = true ∧
      (handle demoBuiltins (demoEnv "6") scenarioAfter
        (.transfer (some "tok1") (.str bobCard) (.num (.fin 1000)))).1
        = .error 400 "insufficient funds") ∧
    (handle demoBuiltins (demoEnv "6") scenarioAfter
      (.transfer (some "tok1") (.str bobCard) (.num (.fin 1000)))).2 = scenarioAfter :=
  ⟨by decide,
    rejected_ledger_op_no_change demoBuiltins (demoEnv "6") scenarioAfter
      (.transfer (some "tok1") (.str bobCard) (.num (.fin 1000))) 400 "insufficient funds"
      (by decide) (by decide)⟩

/-- C6, counterexample: the claim as stated fails when a coercion throws.  With
a valid token and a destination card that has no account, a transfer whose
amount is a JSON object with an own property `toString` is not answered 404:
`Number(amount)` is evaluated before the recipient check and throws, so the
request ends with status 500. -/
theorem throwing_amount_precedes_recipient_check :
    (getAccountByToken scenarioState (some "tok1")).map (fun p => p.1) = some aliceCard ∧
    normalizedInput demoBuiltins (.str "9999") = some "9999" ∧
    JSMap.get scenarioState.accountsByCard "9999" = none ∧
    transfer demoBuiltins (demoEnv "5") scenarioState (some "tok1") (.str "9999") throwingObject
      = (.uncaught, scenarioState) ∧
    Response.uncaught ≠ .error 404 "recipient not found" := by
  decide

/-- C6 (amended): the outcome of a transfer is decided by the first failing
step, in this order: 401 when the token resolves to no account; else an uncaught
`TypeError` (status 500, state unchanged) when `String(toCardNumber || "")` or
`Number(amount)` throws; else 404 when the normalised destination card has no
account; else 400 "invalid amount" when `Number(amount)` is not a finite number
greater than zero; else 400 "insufficient funds" when the source balance is
strictly less than the amount; else the transfer succeeds (so an amount equal
to the balance succeeds).  It succeeds exactly when every step passes. -/
theorem transfer_check_order (B : Builtins) (env : Env) (s : State) (token : Option String)
    (toCardNumber amount : JSVal) :
    (getAccountByToken s token = none →
      (transfer B env s token toCardNumber amount).1 = .error 401 "invalid session") ∧
    (∀ kx x, getAccountByToken s token = some (kx, x) →
      ((normalizedInput B toCardNumber = none ∨ toNumber B amount = none) →
        transfer B env s token toCardNumber amount = (.uncaught, s)) ∧
      (∀ ky p, normalizedInput B toCardNumber = some ky → toNumber B amount = some p →
        (JSMap.get s.accountsByCard ky = none →
          (transfer B env s token toCardNumber amount).1 = .error 404 "recipient not found") ∧
        (∀ y, JSMap.get s.accountsByCard ky = some y →
          (invalidAmount p →
            (transfer B env s token toCardNumber amount).1 = .error 400 "invalid amount") ∧
          (∀ A, p = .fin A → 0 < A →
            (x.balance.lt (.fin A) = true →
              (transfer B env s token toCardNumber amount).1
                = .error 400 "insufficient funds") ∧
            (x.balance.lt (.fin A) = false →
              (transfer B env s token toCardNumber amount).1
                = .transferred (transferTx env x y (.fin A))))))) ∧
    ((∃ tx, (transfer B env s token toCardNumber amount).1 = .transferred tx) ↔
      ∃ kx x ky y A, getAccountByToken s token = some (kx, x) ∧
        normalizedInput B toCardNumber = some ky ∧
        JSMap.get s.accountsByCard ky = some y ∧
        toNumber B amount = some (.fin A) ∧ 0 < A ∧ x.balance.lt (.fin A) = false) := by
  refine ⟨?_, ?_, ?_⟩
  · intro h
    simp [transfer, h]
  · intro kx x hx
    refine ⟨?_, ?_⟩
    · rintro (h | h)
      · simp [transfer, hx, h]
      · cases hk : normalizedInput B toCardNumber <;> simp [transfer, hx, hk, h]
    · intro ky p hk hp
      refine ⟨?_, ?_⟩
      · intro h
        simp [transfer, hx, hk, hp, h]
      · intro y hy
        refine ⟨?_, ?_⟩
        · intro hbad
          have hc := (amount_check_true p).mpr hbad
          simp only [transfer, hx, hk, hp, hy, hc, if_true]
        · intro A hA hpos
          subst hA
          have hc : (!(JSNum.fin A).isFinite || (JSNum.fin A).le (.fin 0)) = false :=
            (amount_check_false _).mpr ⟨A, rfl, hpos⟩
          refine ⟨?_, ?_⟩
          · intro hlt
            simp only [transfer, hx, hk, hp, hy, hc, hlt, if_true]
            rfl
          · intro hle
            rw [transfer_eq_of_checks B env s token toCardNumber amount kx ky x y A hx hk hy hp
              hpos hle]
  · constructor
    · rintro ⟨tx, htx⟩
      exact transfer_checks_of_ok B env s _ token toCardNumber amount tx (Prod.ext htx rfl)
    · rintro ⟨kx, x, ky, y, A, hx, hk, hy, hA, hpos, hle⟩
      rw [transfer_eq_of_checks B env s token toCardNumber amount kx ky x y A hx hk hy hA hpos
        hle]
      exact ⟨_, rfl⟩

/-- C6, witness on the example scenario: with Alice at 100, her transfer of
exactly 100 to Bob passes every step and succeeds, and her transfer of 101 is
rejected for insufficient funds. -/
theorem transfer_check_order_witness :
    (transfer demoBuiltins (demoEnv "5") scenarioState (some "tok1") (.str bobCard)
        (.num (.fin 100))).1
      = .transferred ⟨"id5", aliceCard, bobCard, .fin 100, "DBL", "t5"⟩ ∧
    (transfer demoBuiltins (demoEnv "5") scenarioState (some "tok1") (.str bobCard)
        (.num (.fin 101))).1
      = .error 400 "insufficient funds" :=
  ⟨((((transfer_check_order demoBuiltins (demoEnv "5") scenarioState (some "tok1")
      (.str bobCard) (.num (.fin 100))).2.1 aliceCard
      ⟨"id1", aliceName, aliceCard, .fin 100, "DBL", "t1",
        [⟨⟨"id4", "ADMIN", aliceCard, .fin 100, "DBL", "t4"⟩, .increase⟩]⟩
      (by decide)).2 bobCard (.fin 100) (by decide) (by decide)).2
      ⟨"id2", bobName, bobCard, .fin 0, "DBL", "t2", []⟩ (by decide)).2
      100 rfl (by norm_num) |>.2 (by decide),
    ((((transfer_check_order demoBuiltins (demoEnv "5") scenarioState (some "tok1")
      (.str bobCard) (.num (.fin 101))).2.1 aliceCard
      ⟨"id1", aliceName, aliceCard, .fin 100, "DBL", "t1",
        [⟨⟨"id4", "ADMIN", aliceCard, .fin 100, "DBL", "t4"⟩, .increase⟩]⟩
      (by decide)).2 bobCard (.fin 101) (by decide) (by decide)).2
      ⟨"id2", bobName, bobCard, .fin 0, "DBL", "t2", []⟩ (by decide)).2
      101 rfl (by norm_num) |>.1 (by decide)⟩

/-- C7, counterexample: the claim as stated fails for a raw amount that is not a
number but that `Number(...)` coerces to a finite positive number: with Alice at
100, a transfer whose amount is the boolean `true` is answered `ok` and moves 1
from Alice to Bob, and an admin credit whose amount is `true` raises her balance
to 101. -/
theorem boolean_amount_accepted :
    (transfer demoBuiltins (demoEnv "5") scenarioState (some "tok1") (.str bobCard)
        (.bool true)).1
      = .transferred ⟨"id5", aliceCard, bobCard, .fin 1, "DBL", "t5"⟩ ∧
    balanceOf (transfer demoBuiltins (demoEnv "5") scenarioState (some "tok1") (.str bobCard)
        (.bool true)).2 aliceCard = some (.fin 99) ∧
    balanceOf (transfer demoBuiltins (demoEnv "5") scenarioState (some "tok1") (.str bobCard)
        (.bool true)).2 bobCard = some (.fin 1) ∧
    (adminIncrease demoBuiltins (demoEnv "5") scenarioState (some "adm_id3") (.str aliceCard)
        (.bool true)).1 = .increased (.fin 101) ∧
    balanceOf (adminIncrease demoBuiltins (demoEnv "5") scenarioState (some "adm_id3")
        (.str aliceCard) (.bool true)).2 aliceCard = some (.fin 101) := by
  decide

/-- C7 (amended): when the raw amount of the request body is missing, `null` or
`false`, or more generally when `Number(amount)` returns a number that is less
than or equal to zero, `NaN`, `Infinity` or `-Infinity`, a transfer with a valid
session token and an existing recipient, and an admin credit with a valid admin
token and an existing card, are rejected with 400 "invalid amount" and the state
stays as it was.  Nothing is said of an amount on which `Number` throws. -/
theorem invalid_amount_rejected (B : Builtins) (env : Env) (s : State) (amount : JSVal)
    (hbad : amount = .undefined ∨ amount = .null ∨ amount = .bool false ∨
      ∃ n, toNumber B amount = some n ∧ invalidAmount n) :
    (∀ token toCardNumber kx x ky y, getAccountByToken s token = some (kx, x) →
      normalizedInput B toCardNumber = some ky →
      JSMap.get s.accountsByCard ky = some y →
      transfer B env s token toCardNumber amount = (.error 400 "invalid amount", s)) ∧
    (∀ adminToken cardNumber t k a, requireAdmin s adminToken = some t →
      normalizedInput B cardNumber = some k →
      JSMap.get s.accountsByCard k = some a →
      adminIncrease B env s adminToken cardNumber amount
        = (.error 400 "invalid amount", s)) := by
  have hinv : ∃ n, toNumber B amount = some n ∧ invalidAmount n := by
    rcases hbad with e | e | e | e
    · rw [e]
      exact ⟨.nan, rfl, trivial⟩
    · rw [e]
      exact ⟨.fin 0, rfl, le_refl (0 : ℚ)⟩
    · rw [e]
      exact ⟨.fin 0, rfl, le_refl (0 : ℚ)⟩
    · exact e
  obtain ⟨n, hn, hbadn⟩ := hinv
  have hc := (amount_check_true n).mpr hbadn
  refine ⟨?_, ?_⟩
  · intro token toCardNumber kx x ky y hx hk hy
    simp only [transfer, hx, hk, hn, hy, hc, if_true]
  · intro adminToken cardNumber t k a hadm hk ha
    simp only [adminIncrease, hadm, hk, hn, ha, hc, if_true]

/-- C7, witness of the amended statement: in the example scenario a transfer
from Alice to Bob and an admin credit of Alice whose amount is `null` are both
rejected with 400 "invalid amount" and leave the state as it was. -/
theorem invalid_amount_rejected_witness :
    (JSVal.null = .undefined ∨ JSVal.null = .null ∨ JSVal.null = .bool false ∨
      ∃ n, toNumber demoBuiltins .null = some n ∧ invalidAmount n) ∧
    transfer demoBuiltins (demoEnv "5") scenarioState (some "tok1") (.str bobCard) .null
      = (.error 400 "invalid amount", scenarioState) ∧
    adminIncrease demoBuiltins (demoEnv "5") scenarioState (some "adm_id3") (.str aliceCard) .null
      = (.error 400 "invalid amount", scenarioState) :=
  ⟨Or.inr (Or.inl rfl),
    (invalid_amount_rejected demoBuiltins (demoEnv "5") scenarioState .null
      (Or.inr (Or.inl rfl))).1 (some "tok1") (.str bobCard) aliceCard
      ⟨"id1", aliceName, aliceCard, .fin 100, "DBL", "t1",
        [⟨⟨"id4", "ADMIN", aliceCard, .fin 100, "DBL", "t4"⟩, .increase⟩]⟩
      bobCard ⟨"id2", bobName, bobCard, .fin 0, "DBL", "t2", []⟩
      (by decide) (by decide) (by decide),
    (invalid_amount_rejected demoBuiltins (demoEnv "5") scenarioState .null
      (Or.inr (Or.inl rfl))).2 (some "adm_id3") (.str aliceCard) "adm_id3" aliceCard
      ⟨"id1", aliceName, aliceCard, .fin 100, "DBL", "t1",
        [⟨⟨"id4", "ADMIN", aliceCard, .fin 100, "DBL", "t4"⟩, .increase⟩]⟩
      (by decide) (by decide) (by decide)⟩

/-- C8: a successful transfer appends one record `{ ...tx, direction: "sent" }` to
the history of the source account and then one record
`{ ...tx, direction: "received" }` to the history of the destination account,
both built from the one object `tx` of the answer (same id, amount, timestamp,
source card, destination card and the currency of the source); the history of
every account is its previous history followed by the records appended to it
(both of them, in this order, when source and destination are one account), so
nothing else is added, changed or removed. -/
theorem transfer_pairing (B : Builtins) (env : Env) (s s' : State)
    (token : Option String) (toCardNumber amount : JSVal) (tx : Tx)
    (h : transfer B env s token toCardNumber amount = (.transferred tx, s')) :
    ∃ kx x ky y, getAccountByToken s token = some (kx, x) ∧
      normalizedInput B toCardNumber = some ky ∧
      JSMap.get s.accountsByCard ky = some y ∧
      toNumber B amount = some tx.amount ∧
      tx = ⟨env.id, x.cardNumber, y.cardNumber, tx.amount, x.currency, env.now⟩ ∧
      ∀ k, historyOf s' k = (historyOf s k).map fun old =>
        old ++ (if k = kx then [⟨tx, .sent⟩] else []) ++
          (if k = ky then [⟨tx, .received⟩] else []) := by
  obtain ⟨kx, x, ky, y, A, hx, hk, hy, hA, hpos, hle⟩ :=
    transfer_checks_of_ok B env s s' token toCardNumber amount tx h
  rw [transfer_eq_of_checks B env s token toCardNumber amount kx ky x y A hx hk hy hA hpos hle]
    at h
  simp only [Prod.mk.injEq, Response.transferred.injEq] at h
  obtain ⟨htx, hs⟩ := h
  subst htx hs
  refine ⟨kx, x, ky, y, hx, hk, hy, hA, rfl, ?_⟩
  intro k
  by_cases h1 : k = kx <;> by_cases h2 : k = ky
  · subst h1
    rw [← h2]
    cases hg : JSMap.get s.accountsByCard k <;>
      simp [historyOf, JSMap.get_modify_self, hg, push, debit, credit]
  · subst h1
    have h2' : ¬ ky = k := fun e => h2 e.symm
    cases hg : JSMap.get s.accountsByCard k <;>
      simp [historyOf, JSMap.get_modify_self, JSMap.get_modify_of_ne, h2, h2', hg, push, debit,
        credit]
  · subst h2
    have h1' : ¬ kx = k := fun e => h1 e.symm
    cases hg : JSMap.get s.accountsByCard k <;>
      simp [historyOf, JSMap.get_modify_self, JSMap.get_modify_of_ne, h1, h1', hg, push, debit,
        credit]
  · cases hg : JSMap.get s.accountsByCard k <;>
      simp [historyOf, JSMap.get_modify_of_ne, h1, h2, hg]

/-- C8, witness on the example scenario: after the transfer of 40 from Alice to
Bob, her history ends with the `sent` record and his with the `received`
record of the same transaction. -/
theorem transfer_pairing_witness :
    (transfer demoBuiltins scenarioTransfer.1 scenarioState (some "tok1") (.str bobCard)
        (.num (.fin 40))
      = (.transferred ⟨"id5", aliceCard, bobCard, .fin 40, "DBL", "t5"⟩, scenarioAfter)) ∧
    (historyOf scenarioAfter aliceCard
        = some [⟨⟨"id4", "ADMIN", aliceCard, .fin 100, "DBL", "t4"⟩, .increase⟩,
            ⟨⟨"id5", aliceCard, bobCard, .fin 40, "DBL", "t5"⟩, .sent⟩] ∧
      historyOf scenarioAfter bobCard
        = some [⟨⟨"id5", aliceCard, bobCard, .fin 40, "DBL", "t5"⟩, .received⟩]) ∧
    ∃ kx x ky y, getAccountByToken scenarioState (some "tok1") = some (kx, x) ∧
      normalizedInput demoBuiltins (.str bobCard) = some ky ∧
      JSMap.get scenarioState.accountsByCard ky = some y ∧
      toNumber demoBuiltins (.num (.fin 40)) = some (.fin 40) ∧
      (⟨"id5", aliceCard, bobCard, .fin 40, "DBL", "t5"⟩ : Tx)
        = ⟨scenarioTransfer.1.id, x.cardNumber, y.cardNumber, .fin 40, x.currency,
            scenarioTransfer.1.now⟩ ∧
      ∀ k, historyOf scenarioAfter k = (historyOf scenarioState k).map fun old =>
        old ++ (if k = kx then [⟨⟨"id5", aliceCard, bobCard, .fin 40, "DBL", "t5"⟩, .sent⟩]
            else []) ++
          (if k = ky then [⟨⟨"id5", aliceCard, bobCard, .fin 40, "DBL", "t5"⟩, .received⟩]
            else []) :=
  ⟨by decide, by decide,
    transfer_pairing demoBuiltins scenarioTransfer.1 scenarioState scenarioAfter
      (some "tok1") (.str bobCard) (.num (.fin 40))
      ⟨"id5", aliceCard, bobCard, .fin 40, "DBL", "t5"⟩ (by decide)⟩

/-- C9, counterexample: the claim as stated fails when the addition is rounded.
With Alice at `2 ^ 53`, an admin credit of 1 on her card is answered with the
balance `2 ^ 53`, not `2 ^ 53 + 1`, and leaves her balance as it was. -/
theorem credit_of_one_is_rounded_away :
    balanceOf bigState aliceCard = some (.fin twoPow53) ∧
    (adminIncrease demoBuiltins unitCredit.1 bigState (some "adm_id3") (.str aliceCard)
        (.num (.fin 1))).1 = .increased (.fin twoPow53) ∧
    balanceOf (adminIncrease demoBuiltins unitCredit.1 bigState (some "adm_id3")
        (.str aliceCard) (.num (.fin 1))).2 aliceCard = some (.fin twoPow53) ∧
    twoPow53 ≠ twoPow53 + 1 := by
  decide

/-- C9 (amended): in every state the server can be in, for a card input whose
normalisation is the card of an existing account `a` and an amount that
`Number(...)` coerces to a finite `A > 0`, a credit request carrying a token of
the admin token set answers with the new balance, the double nearest to
`a.balance + A`; afterwards the account has that balance and its previous
history followed by one record with direction `increase`, source "ADMIN",
destination the card of the account and amount `A`, its other fields are as
before, and every other account, the sessions and the admin tokens are
unchanged.  When `a.balance + A` is a double the new balance is exactly
`a.balance + A` and the sum of all balances grows by `A`. -/
theorem adminIncrease_postcondition (B : Builtins) (env : Env) (s : State) (t k : String)
    (cardNumber amount : JSVal) (a : Account) (A : ℚ)
    (hs : Reachable B s) (ht : t ∈ s.adminSessions)
    (hk : normalizedInput B cardNumber = some k)
    (ha : JSMap.get s.accountsByCard k = some a)
    (hA : toNumber B amount = some (.fin A)) (hpos : 0 < A) :
    (adminIncrease B env s (some t) cardNumber amount).1
      = .increased (a.balance.add (.fin A)) ∧
    JSMap.get (adminIncrease B env s (some t) cardNumber amount).2.accountsByCard k
      = some { a with
          balance := a.balance.add (.fin A)
          transactions := a.transactions ++
            [⟨⟨env.id, "ADMIN", a.cardNumber, .fin A, a.currency, env.now⟩, .increase⟩] } ∧
    (∀ k', k' ≠ k →
      JSMap.get (adminIncrease B env s (some t) cardNumber amount).2.accountsByCard k'
        = JSMap.get s.accountsByCard k') ∧
    (adminIncrease B env s (some t) cardNumber amount).2.sessions = s.sessions ∧
    (adminIncrease B env s (some t) cardNumber amount).2.adminSessions = s.adminSessions ∧
    (∀ b, a.balance = .fin b → IsDouble (b + A) →
      a.balance.add (.fin A) = .fin (b + A) ∧
      totalBalance (adminIncrease B env s (some t) cardNumber amount).2
        = (totalBalance s).map fun total => total + A) := by
  obtain ⟨trace, rfl⟩ := hs
  have hne : t ≠ "" := by
    intro e
    subst e
    exact adminSessions_ne_empty B trace State.empty (by simp [State.empty]) ht
  rw [adminIncrease_eq_of_checks B env _ (some t) cardNumber amount t k a A
    (requireAdmin_of_mem _ t ht hne) hk ha hA hpos]
  refine ⟨rfl, ?_, ?_, rfl, rfl, ?_⟩
  · simp [JSMap.get_modify_self, ha, credit, push, increaseRecord]
  · intro k' hk'
    simp [JSMap.get_modify_of_ne, hk']
  · intro b hb hd
    have e : a.balance.add (.fin A) = .fin (b + A) := by
      rw [hb]
      exact hd
    refine ⟨e, ?_⟩
    simp only [totalBalance]
    rw [exactSum_modify_same _ k (push _) (fun a => rfl),
      exactSum_modify _ k (credit (.fin A)) a b (b + A) ha hb (by simp only [credit]; exact e)]
    congr 1
    funext total
    ring

/-- C9, witness on the example scenario: crediting Alice, at balance 0, by 100
yields balance 100. -/
theorem adminIncrease_postcondition_witness :
    (Reachable demoBuiltins registeredState ∧
      "adm_id3" ∈ registeredState.adminSessions ∧
      normalizedInput demoBuiltins (.str aliceCard) = some aliceCard ∧
      JSMap.get registeredState.accountsByCard aliceCard
        = some ⟨"id1", aliceName, aliceCard, .fin 0, "DBL", "t1", []⟩ ∧
      toNumber demoBuiltins (.num (.fin 100)) = some (.fin 100) ∧ (0 : ℚ) < 100 ∧
      IsDouble (0 + 100) ∧
      balanceOf (adminIncrease demoBuiltins (demoEnv "4") registeredState (some "adm_id3")
        (.str aliceCard) (.num (.fin 100))).2 aliceCard = some (.fin 100)) ∧
    ((adminIncrease demoBuiltins (demoEnv "4") registeredState (some "adm_id3")
        (.str aliceCard) (.num (.fin 100))).1
      = .increased ((JSNum.fin 0).add (.fin 100)) ∧
    JSMap.get (adminIncrease demoBuiltins (demoEnv "4") registeredState (some "adm_id3")
        (.str aliceCard) (.num (.fin 100))).2.accountsByCard aliceCard
      = some ⟨"id1", aliceName, aliceCard, (JSNum.fin 0).add (.fin 100), "DBL", "t1",
          [] ++ [⟨⟨"id4", "ADMIN", aliceCard, .fin 100, "DBL", "t4"⟩, .increase⟩]⟩ ∧
    (∀ k', k' ≠ aliceCard →
      JSMap.get (adminIncrease demoBuiltins (demoEnv "4") registeredState (some "adm_id3")
        (.str aliceCard) (.num (.fin 100))).2.accountsByCard k'
        = JSMap.get registeredState.accountsByCard k') ∧
    (adminIncrease demoBuiltins (demoEnv "4") registeredState (some "adm_id3")
        (.str aliceCard) (.num (.fin 100))).2.sessions = registeredState.sessions ∧
    (adminIncrease demoBuiltins (demoEnv "4") registeredState (some "adm_id3")
        (.str aliceCard) (.num (.fin 100))).2.adminSessions = registeredState.adminSessions ∧
    (∀ b, (JSNum.fin 0) = .fin b → IsDouble (b + 100) →
      (JSNum.fin 0).add (.fin 100) = .fin (b + 100) ∧
      totalBalance (adminIncrease demoBuiltins (demoEnv "4") registeredState (some "adm_id3")
        (.str aliceCard) (.num (.fin 100))).2
        = (totalBalance registeredState).map fun total => total + 100)) :=
  ⟨⟨⟨_, rfl⟩, by decide, by decide, by decide, by decide, by decide, by decide, by decide⟩,
    adminIncrease_postcondition demoBuiltins (demoEnv "4") registeredState "adm_id3" aliceCard
      (.str aliceCard) (.num (.fin 100)) ⟨"id1", aliceName, aliceCard, .fin 0, "DBL", "t1", []⟩
      100 ⟨_, rfl⟩ (by decide) (by decide) (by decide) (by decide) (by decide)⟩

/-- C10: a request to an admin route (list accounts, credit) whose admin token is
missing or is not in the admin token set is answered 401 "unauthorized", with no
account data, and leaves the state as it was; the admin token set changes only
by an admin login whose code is the configured secret; an admin login with any
other code is answered 401 and leaves the state as it was. -/
theorem admin_gate (B : Builtins) (env : Env) (s : State) :
    (∀ adminToken, (∀ t, adminToken = some t → t ∉ s.adminSessions) →
      adminAccounts s adminToken = (.error 401 "unauthorized", s) ∧
      ∀ cardNumber amount,
        adminIncrease B env s adminToken cardNumber amount = (.error 401 "unauthorized", s)) ∧
    (∀ r, (handle B env s r).2.adminSessions ≠ s.adminSessions →
      r = .adminLogin (.str ADMIN_ACCESS_CODE)) ∧
    (∀ code, code ≠ .str ADMIN_ACCESS_CODE →
      adminLogin env s code = (.error 401 "invalid code", s)) := by
  refine ⟨?_, ?_, ?_⟩
  · intro adminToken hbad
    have hr := requireAdmin_none s adminToken hbad
    refine ⟨by simp [adminAccounts, hr], ?_⟩
    intro cardNumber amount
    simp [adminIncrease, hr]
  · intro r hr
    rcases handle_adminSessions B env s r with e | e
    · exact absurd e hr
    · exact e
  · intro code hcode
    cases code with
    | str c =>
      have hc : c ≠ ADMIN_ACCESS_CODE := fun e => hcode (by rw [e])
      simp [adminLogin, hc]
    | undefined => rfl
    | null => rfl
    | bool b => rfl
    | num n => rfl
    | arr xs => rfl
    | obj keys => rfl

/-- C10, witness on the example scenario: a request for the account list and a
credit request with the token "guess", which is not an admin token, are answered
401 and change nothing; an admin login with the code "guess" is answered 401. -/
theorem admin_gate_witness :
    adminAccounts scenarioState (some "guess") = (.error 401 "unauthorized", scenarioState) ∧
    adminIncrease demoBuiltins (demoEnv "5") scenarioState (some "guess") (.str aliceCard)
        (.num (.fin 100))
      = (.error 401 "unauthorized", scenarioState) ∧
    adminLogin (demoEnv "5") scenarioState (.str "guess")
      = (.error 401 "invalid code", scenarioState) :=
  ⟨((admin_gate demoBuiltins (demoEnv "5") scenarioState).1 (some "guess")
      (fun t ht => by cases ht; decide)).1,
    ((admin_gate demoBuiltins (demoEnv "5") scenarioState).1 (some "guess")
      (fun t ht => by cases ht; decide)).2 _ _,
    (admin_gate demoBuiltins (demoEnv "5") scenarioState).2.2 (.str "guess")
      (fun e => by
        have h : "guess" = ADMIN_ACCESS_CODE := JSVal.str.inj e
        exact absurd h (by decide))⟩

end BBank
